import Mathlib

/-!
# Verification of the `BeamSearch` decoder (`src/modules/nn/beam_search.py`)

This file gives a shallow embedding of the batched beam-search decoder from
`src/modules/nn/beam_search.py` and proves the frozen claims about it.

Modelling conventions:

* Floating-point log-probabilities are modelled as `WithBot ℤ`: the bottom
  element `⊥` plays the role of `-infinity` (it absorbs addition and is
  below every finite value), and finite scores are exact integers.  The
  algorithm only compares and adds the scores produced by the scoring
  functions and never creates new fractional values, so any linearly
  ordered additive carrier with an absorbing `-infinity` captures its
  bookkeeping exactly; integers are used so that concrete runs evaluate
  inside the kernel.
* A tensor of shape `(r, c)` is a list of `r` rows, each a list of `c`
  entries; `reshape`, `expand`, `gather` and `topk` are translated to the
  corresponding row-major list operations.
* The opaque state dictionary (`StateType`) is a Python object that
  `search` mutates in place (`state[key] = ...`).  To capture object
  identity we use a store-passing style: a `Store` is a list of dictionary
  contents and a dictionary value is a reference (index) into the store.
  A step function receives the reference of its input dictionary together
  with the current store and returns log-probabilities, the reference of
  its output dictionary and the (possibly extended) store.  `search`
  writes its in-place updates through the reference it currently holds.
* Failure sites of the Python code are made explicit:
  `ConfigurationError` (the `per_node_beam_size > num_classes` check),
  `RuntimeError` (torch shape/`topk` failures and the implicit
  rectangularity of real tensors), and `IndexError`
  (`backpointers[-1]` on an empty Python list).
* `torch.topk` returns the `k` largest entries of each row together with
  their indices; ties are broken in an implementation-defined way.  The
  embedding uses a concrete deterministic instance: entries are ranked by
  value (descending) with ties broken by smaller index first, realised by
  a structurally recursive insertion sort so that concrete runs evaluate.
-/

namespace BeamSearchSpec

/-- Log-probabilities: exact integers extended with `⊥` standing for the
floating-point `-infinity` used by `log_probs_after_end`. -/
abbrev LogProb := WithBot ℤ

/-- A 2-dimensional tensor as a list of rows. -/
abbrev Mat (α : Type) := List (List α)

/-- The content of one state dictionary: an association list from string
keys to tensors, where each tensor is kept as its list of leading-dimension
rows and a row (the trailing dimensions) is one opaque value of type `σ`. -/
abbrev StateContent (σ : Type) := List (String × List σ)

/-- The heap of state-dictionary objects; a dictionary is an index into it. -/
abbrev Store (σ : Type) := List (StateContent σ)

/-- Result of one scoring call: the class log-probabilities
(`group_size × num_classes`), the reference of the returned state
dictionary, and the store after the call. -/
structure StepOutput (σ : Type) where
  logProbs : Mat LogProb
  stateRef : Nat
  store : Store σ

/-- `StepFunctionType`: last predictions, the reference of the incoming
state dictionary, and the current store. -/
abbrev StepFn (σ : Type) := List Nat → Nat → Store σ → StepOutput σ

/-- The ways a `search` call can fail, mirroring the Python exceptions:
`ConfigurationError` from the explicit `per_node_beam_size` check,
`RuntimeError` from torch shape/`topk` violations, and `IndexError` from
indexing `backpointers[-1]` on an empty list. -/
inductive SearchError where
  | configurationError
  | runtimeError
  | indexError
  deriving DecidableEq, Repr

/-- The `BeamSearch` object: its four configuration fields, immutable per
instance (`_end_index`, `max_steps`, `beam_size`, `per_node_beam_size`). -/
structure BeamSearch where
  endIndex : Nat
  maxSteps : Nat
  beamSize : Nat
  perNodeBeamSize : Nat
  deriving DecidableEq, Repr

/-! ## Tensor primitives -/

/-- Read a dictionary content out of the store (`store[r]`). -/
def storeGet (store : Store σ) (r : Nat) : StateContent σ := store.getD r []

/-- Overwrite a dictionary content in the store: the in-place mutation
`state[key] = ...` performed through reference `r`. -/
def storeSet (store : Store σ) (r : Nat) (c : StateContent σ) : Store σ := store.set r c

/-- Does `xs` rank strictly before `ys` in the descending-value,
ascending-index order used to realise `topk`? -/
def rankBefore (xs : List LogProb) (i j : Nat) : Prop :=
  xs.getD j ⊥ < xs.getD i ⊥ ∨ (xs.getD i ⊥ = xs.getD j ⊥ ∧ i < j)

instance (xs : List LogProb) (i j : Nat) : Decidable (rankBefore xs i j) := by
  unfold rankBefore; infer_instance

/-- Insert index `i` into an index list sorted by `rankBefore`. -/
def insertRank (xs : List LogProb) (i : Nat) : List Nat → List Nat
  | [] => [i]
  | j :: rest => if rankBefore xs i j then i :: j :: rest else j :: insertRank xs i rest

/-- All indices of `xs`, sorted by descending value (ties: smaller index
first).  This is the order in which `torch.topk` hands out entries. -/
def argsortDesc (xs : List LogProb) : List Nat :=
  (List.range xs.length).foldr (insertRank xs) []

/-- `row.topk(k)`: the `k` best (value, index) pairs of a row, best first.
`torch.topk` itself raises when `k` exceeds the row length; that check is
made at each call site. -/
def topkRow (xs : List LogProb) (k : Nat) : List (LogProb × Nat) :=
  ((argsortDesc xs).take k).map fun i => (xs.getD i ⊥, i)

/-- `m.gather(1, idx)`: entry `(b, k)` of the result is `m[b][idx[b][k]]`. -/
def gatherDim1 (m idx : Mat Nat) : Mat Nat :=
  List.zipWith (fun row idxRow => idxRow.map fun i => row.getD i 0) m idx

/-- Row-major reshape of a flat list into `count` rows of `c` entries. -/
def chunkRows (c count : Nat) (xs : List α) : Mat α :=
  (List.range count).map fun b => (xs.drop (b * c)).take c

/-- The forced-end distribution `log_probs_after_end` (one row): `-inf`
everywhere except `0.` at `end_index`. -/
def logProbsAfterEnd (numClasses endIndex : Nat) : List LogProb :=
  (List.range numClasses).map fun c => if c = endIndex then (0 : LogProb) else ⊥

/-- One row of the `torch.where` select: a hypothesis whose last prediction
was `end_index` has its distribution replaced by the forced-end row.  (The
condition tensor is constant along each row, so the elementwise `where` is
exactly this per-row select.) -/
def cleanRow (endIndex numClasses : Nat) (lastPred : Nat) (row : List LogProb) : List LogProb :=
  if lastPred = endIndex then logProbsAfterEnd numClasses endIndex else row

/-- `cleaned_log_probabilities`: the forced-end replacement applied to the
step function's output, row by row. -/
def cleanedLogProbs (endIndex numClasses : Nat) (lastPredictions : List Nat)
    (classLogProbs : Mat LogProb) : Mat LogProb :=
  List.zipWith (cleanRow endIndex numClasses) lastPredictions classLogProbs

/-- `unsqueeze(1).expand(batch, beam, *).reshape(batch*beam, *)` on a state
tensor: each leading-dimension row is repeated `beam_size` times. -/
def expandStateContent (beamSize : Nat) (c : StateContent σ) : StateContent σ :=
  c.map fun kv => (kv.1, kv.2.flatMap fun row => List.replicate beamSize row)

/-- The backpointer gather on a state tensor:
`reshape(batch, beam, *).gather(1, expanded_backpointer).reshape(batch*beam, *)`,
i.e. new row `b*beam + k` is old row `b*beam + backpointer[b][k]`. -/
def gatherStateRows [Inhabited σ] (batchSize beamSize : Nat) (bp : Mat Nat)
    (rows : List σ) : List σ :=
  (List.range batchSize).flatMap fun b =>
    (bp.getD b []).map fun p => rows.getD (b * beamSize + p) default

/-- The backpointer gather applied to every tensor of a state dictionary. -/
def gatherStateContent [Inhabited σ] (batchSize beamSize : Nat) (bp : Mat Nat)
    (c : StateContent σ) : StateContent σ :=
  c.map fun kv => (kv.1, gatherStateRows batchSize beamSize bp kv.2)

/-! ## The search loop -/

/-- The local variables of `search` that live across loop iterations. -/
structure LoopState (σ : Type) where
  predictions : List (Mat Nat)
  backpointers : List (Mat Nat)
  lastLogProbabilities : Mat LogProb
  stateRef : Nat
  store : Store σ
  deriving DecidableEq, Repr

/-- `predictions[-1].reshape(batch_size * beam_size)`. -/
def lastPredsOf (s : LoopState σ) : List Nat := (s.predictions.getLastD []).flatten

/-- The early-termination test
`(last_predictions == self._end_index).all()`. -/
def stopCondition (cfg : BeamSearch) (s : LoopState σ) : Bool :=
  (lastPredsOf s).all fun t => t == cfg.endIndex

/-- The scoring call of one loop iteration:
`class_log_probabilities, state = step(last_predictions, state)`. -/
def stepOut (stepFn : StepFn σ) (s : LoopState σ) : StepOutput σ :=
  stepFn (lastPredsOf s) s.stateRef s.store

/-- `cleaned_log_probabilities` of one loop iteration. -/
def stepCleaned (cfg : BeamSearch) (stepFn : StepFn σ) (numClasses : Nat)
    (s : LoopState σ) : Mat LogProb :=
  cleanedLogProbs cfg.endIndex numClasses (lastPredsOf s) (stepOut stepFn s).logProbs

/-- `cleaned_log_probabilities.topk(per_node_beam_size)`: per-hypothesis
(value, token) pairs, `top_log_probabilities` zipped with
`predicted_classes`. -/
def stepTopPairs (cfg : BeamSearch) (stepFn : StepFn σ) (numClasses : Nat)
    (s : LoopState σ) : List (List (LogProb × Nat)) :=
  (stepCleaned cfg stepFn numClasses s).map fun row => topkRow row cfg.perNodeBeamSize

/-- `summed_top_log_probabilities = top_log_probabilities +
expanded_last_log_probabilities`. -/
def stepSummed (cfg : BeamSearch) (stepFn : StepFn σ) (numClasses : Nat)
    (s : LoopState σ) : Mat LogProb :=
  List.zipWith (List.zipWith (· + ·))
    ((stepTopPairs cfg stepFn numClasses s).map fun r => r.map Prod.fst)
    (s.lastLogProbabilities.flatten.map fun lp => List.replicate cfg.perNodeBeamSize lp)

/-- `reshaped_summed`: shape `(batch_size, beam_size * per_node_beam_size)`. -/
def stepReshapedSummed (cfg : BeamSearch) (stepFn : StepFn σ) (batchSize numClasses : Nat)
    (s : LoopState σ) : Mat LogProb :=
  chunkRows (cfg.beamSize * cfg.perNodeBeamSize) batchSize
    (stepSummed cfg stepFn numClasses s).flatten

/-- `reshaped_predicted_classes`: shape `(batch_size, beam_size * per_node_beam_size)`. -/
def stepReshapedClasses (cfg : BeamSearch) (stepFn : StepFn σ) (batchSize numClasses : Nat)
    (s : LoopState σ) : Mat Nat :=
  chunkRows (cfg.beamSize * cfg.perNodeBeamSize) batchSize
    ((stepTopPairs cfg stepFn numClasses s).map fun r => r.map Prod.snd).flatten

/-- `reshaped_summed.topk(beam_size)`: `restricted_beam_log_probs` zipped
with `restricted_beam_indices`. -/
def stepGridPairs (cfg : BeamSearch) (stepFn : StepFn σ) (batchSize numClasses : Nat)
    (s : LoopState σ) : List (List (LogProb × Nat)) :=
  (stepReshapedSummed cfg stepFn batchSize numClasses s).map fun row => topkRow row cfg.beamSize

/-- `restricted_beam_indices`: the flattened rank, within the
`beam_size * per_node_beam_size` candidate grid, of each surviving candidate. -/
def stepBeamIndices (cfg : BeamSearch) (stepFn : StepFn σ) (batchSize numClasses : Nat)
    (s : LoopState σ) : Mat Nat :=
  (stepGridPairs cfg stepFn batchSize numClasses s).map fun r => r.map Prod.snd

/-- `restricted_beam_log_probs`: the surviving summed log-probabilities. -/
def stepBeamLogProbs (cfg : BeamSearch) (stepFn : StepFn σ) (batchSize numClasses : Nat)
    (s : LoopState σ) : Mat LogProb :=
  (stepGridPairs cfg stepFn batchSize numClasses s).map fun r => r.map Prod.fst

/-- `restricted_predicted_classes = reshaped_predicted_classes.gather(1,
restricted_beam_indices)`. -/
def stepRestrictedClasses (cfg : BeamSearch) (stepFn : StepFn σ) (batchSize numClasses : Nat)
    (s : LoopState σ) : Mat Nat :=
  gatherDim1 (stepReshapedClasses cfg stepFn batchSize numClasses s)
    (stepBeamIndices cfg stepFn batchSize numClasses s)

/-- `backpointer = restricted_beam_indices / per_node_beam_size` — exact
integer division on a `LongTensor`. -/
def stepBackpointer (cfg : BeamSearch) (stepFn : StepFn σ) (batchSize numClasses : Nat)
    (s : LoopState σ) : Mat Nat :=
  (stepBeamIndices cfg stepFn batchSize numClasses s).map fun row =>
    row.map fun i => i / cfg.perNodeBeamSize

/-- One iteration of the main `for timestep in range(self.max_steps - 1)`
body, after the early-termination test: call `step`, force ended
hypotheses onto the end token, take the per-node and then the per-batch
`topk`, record predictions and backpointers, and gather the state by the
backpointers (an in-place write through the current state reference).
Torch shape constraints appear as explicit checks that fail with
`runtimeError` exactly where the corresponding torch operation would
raise; the rectangularity check encodes that a real tensor returned by
`step` has shape `(batch_size * beam_size, num_classes)`. -/
def beamStep [Inhabited σ] (cfg : BeamSearch) (stepFn : StepFn σ)
    (batchSize numClasses : Nat) (s : LoopState σ) : Except SearchError (LoopState σ) :=
  -- reshape(batch_size * beam_size) on predictions[-1]
  if (lastPredsOf s).length = batchSize * cfg.beamSize then
    if (stepOut stepFn s).logProbs.length = batchSize * cfg.beamSize ∧
        ∀ row ∈ (stepOut stepFn s).logProbs, row.length = numClasses then
      -- cleaned_log_probabilities.topk(per_node_beam_size)
      if cfg.perNodeBeamSize ≤ numClasses then
        -- reshaped_summed.topk(beam_size)
        if cfg.beamSize ≤ cfg.beamSize * cfg.perNodeBeamSize then
          .ok { predictions := s.predictions ++
                  [stepRestrictedClasses cfg stepFn batchSize numClasses s]
                backpointers := s.backpointers ++
                  [stepBackpointer cfg stepFn batchSize numClasses s]
                lastLogProbabilities := stepBeamLogProbs cfg stepFn batchSize numClasses s
                stateRef := (stepOut stepFn s).stateRef
                store := storeSet (stepOut stepFn s).store (stepOut stepFn s).stateRef
                  (gatherStateContent batchSize cfg.beamSize
                    (stepBackpointer cfg stepFn batchSize numClasses s)
                    (storeGet (stepOut stepFn s).store (stepOut stepFn s).stateRef)) }
        else .error .runtimeError
      else .error .runtimeError
    else .error .runtimeError
  else .error .runtimeError

/-- The main loop, with fuel `max_steps - 1`: stop early when every
hypothesis last predicted the end token, otherwise run one `beamStep`. -/
def searchLoop [Inhabited σ] (cfg : BeamSearch) (stepFn : StepFn σ)
    (batchSize numClasses : Nat) : Nat → LoopState σ → Except SearchError (LoopState σ)
  | 0, s => .ok s
  | n + 1, s =>
    if stopCondition cfg s then .ok s
    else
      match beamStep cfg stepFn batchSize numClasses s with
      | .ok s' => searchLoop cfg stepFn batchSize numClasses n s'
      | .error e => .error e

/-- How many times the main loop invokes the `step` function (each
non-stopped iteration calls it exactly once, whether or not the iteration
then fails). -/
def searchLoopCalls [Inhabited σ] (cfg : BeamSearch) (stepFn : StepFn σ)
    (batchSize numClasses : Nat) : Nat → LoopState σ → Nat
  | 0, _ => 0
  | n + 1, s =>
    if stopCondition cfg s then 0
    else
      match beamStep cfg stepFn batchSize numClasses s with
      | .ok s' => 1 + searchLoopCalls cfg stepFn batchSize numClasses n s'
      | .error _ => 1

/-- Everything `search` does before the main loop: the first scoring call,
the `per_node_beam_size > num_classes` configuration check, the first
`topk(beam_size)`, building `log_probs_after_end` (whose `[:, end_index]`
write needs `end_index < num_classes`), and broadcasting the state across
the beam (an in-place write through the returned reference).  Returns the
discovered `num_classes` and the initial loop state. -/
def searchInit [Inhabited σ] (cfg : BeamSearch) (firstStepFn : StepFn σ)
    (startPredictions : List Nat) (startStateRef : Nat) (store : Store σ) :
    Except SearchError (Nat × LoopState σ) :=
  let batchSize := startPredictions.length
  let out := firstStepFn startPredictions startStateRef store
  let startClassLogProbs := out.logProbs
  -- a real tensor of shape (batch_size, num_classes) is rectangular
  if startClassLogProbs.length = batchSize ∧
      ∀ row ∈ startClassLogProbs, row.length = (startClassLogProbs.headD []).length then
    let numClasses := (startClassLogProbs.headD []).length
    if cfg.perNodeBeamSize > numClasses then .error .configurationError
    else if cfg.beamSize ≤ numClasses then
      -- start_class_log_probabilities.topk(beam_size)
      let startTop := startClassLogProbs.map fun row => topkRow row cfg.beamSize
      let lastLogProbabilities := startTop.map fun r => r.map Prod.fst
      let startPredictedClasses := startTop.map fun r => r.map Prod.snd
      if cfg.endIndex < numClasses then
        -- set the same state for each element in the beam (in place)
        let expandedStore := storeSet out.store out.stateRef
          (expandStateContent cfg.beamSize (storeGet out.store out.stateRef))
        .ok (numClasses,
          { predictions := [startPredictedClasses]
            backpointers := []
            lastLogProbabilities := lastLogProbabilities
            stateRef := out.stateRef
            store := expandedStore })
      else .error .runtimeError
    else .error .runtimeError
  else .error .runtimeError

/-! ## Reconstruction -/

/-- The backward walk `for timestep in range(len(predictions) - 2, 0, -1)`:
the counter is the timestep currently being processed; each iteration
gathers the predictions of that timestep at the current ancestor slots and
then pulls the ancestor slots one step further back. -/
def reconstructLoop (predictions backpointers : List (Mat Nat)) :
    Nat → Mat Nat → List (Mat Nat) → List (Mat Nat) × Mat Nat
  | 0, curBp, acc => (acc, curBp)
  | t + 1, curBp, acc =>
    let curPreds := gatherDim1 (predictions.getD (t + 1) []) curBp
    reconstructLoop predictions backpointers t
      (gatherDim1 (backpointers.getD t []) curBp) (acc ++ [curPreds])

/-- The reconstruction pass after the loop: seed with `predictions[-1]`,
walk the backpointers (reading `backpointers[-1]` raises `IndexError` on
an empty list), finish with `predictions[0]` gathered at the accumulated
ancestors, and reverse into chronological order.  Returns the list of
per-timestep `(batch, beam)` matrices that `torch.cat(..., 2)` stacks. -/
def reconstruct (predictions backpointers : List (Mat Nat)) :
    Except SearchError (List (Mat Nat)) :=
  if predictions.isEmpty then .error .indexError
  else if backpointers.isEmpty then .error .indexError
  else
    .ok (((reconstructLoop predictions backpointers (predictions.length - 2)
          (backpointers.getLastD []) [predictions.getLastD []]).1 ++
        [gatherDim1 (predictions.getD 0 [])
          (reconstructLoop predictions backpointers (predictions.length - 2)
            (backpointers.getLastD []) [predictions.getLastD []]).2]).reverse)

/-- `torch.cat(list(reversed(reconstructed_predictions)), 2)` with the
matrices already in chronological order: the output tensor of shape
`(batch_size, beam_size, steps)` as nested lists. -/
def stackTime (ms : List (Mat Nat)) (batchSize beamSize : Nat) : List (Mat (Nat)) :=
  (List.range batchSize).map fun b =>
    (List.range beamSize).map fun k => ms.map fun m => (m.getD b []).getD k 0

/-- The value `search` returns: `(all_predictions, last_log_probabilities)`. -/
structure SearchResult where
  allPredictions : List (Mat Nat)
  logProbabilities : Mat LogProb
  deriving DecidableEq, Repr

/-- `BeamSearch.search`.  The optional `first_step` argument defaults to
`step` (`first_step = first_step or step`).  Besides the returned pair the
embedding also yields the final store, i.e. the heap of state-dictionary
objects as the caller sees it after the call. -/
def BeamSearch.search [Inhabited σ] (cfg : BeamSearch) (startPredictions : List Nat)
    (startStateRef : Nat) (store : Store σ) (stepFn : StepFn σ)
    (firstStepFn? : Option (StepFn σ)) : Except SearchError (SearchResult × Store σ) :=
  let batchSize := startPredictions.length
  let firstStepFn := firstStepFn?.getD stepFn
  match searchInit cfg firstStepFn startPredictions startStateRef store with
  | .error e => .error e
  | .ok (numClasses, s0) =>
    match searchLoop cfg stepFn batchSize numClasses (cfg.maxSteps - 1) s0 with
    | .error e => .error e
    | .ok sF =>
      match reconstruct sF.predictions sF.backpointers with
      | .error e => .error e
      | .ok recon =>
        .ok ({ allPredictions := stackTime recon batchSize cfg.beamSize
               logProbabilities := sF.lastLogProbabilities }, sF.store)

/-- Number of main-loop `step` invocations a `search` call performs
(the first scoring call goes through `first_step`). -/
def BeamSearch.searchStepCalls [Inhabited σ] (cfg : BeamSearch) (startPredictions : List Nat)
    (startStateRef : Nat) (store : Store σ) (stepFn : StepFn σ)
    (firstStepFn? : Option (StepFn σ)) : Nat :=
  let batchSize := startPredictions.length
  let firstStepFn := firstStepFn?.getD stepFn
  match searchInit cfg firstStepFn startPredictions startStateRef store with
  | .error _ => 0
  | .ok (numClasses, s0) =>
    searchLoopCalls cfg stepFn batchSize numClasses (cfg.maxSteps - 1) s0

/-! ## Elementary list lemmas -/

theorem getD_append_lt {α : Type} {l l' : List α} {n : Nat} {d : α} (h : n < l.length) :
    (l ++ l').getD n d = l.getD n d := by
  simp [List.getD_eq_getElem?_getD, List.getElem?_append, h]

theorem getD_append_right_self {α : Type} {l l' : List α} {n : Nat} {d : α} :
    (l ++ l').getD (l.length + n) d = l'.getD n d := by
  simp [List.getD_eq_getElem?_getD, List.getElem?_append_right]

theorem getD_zipWith {α β γ : Type} {f : α → β → γ} {as : List α} {bs : List β} {i : Nat}
    {da : α} {db : β} {dc : γ} (ha : i < as.length) (hb : i < bs.length) :
    (List.zipWith f as bs).getD i dc = f (as.getD i da) (bs.getD i db) := by
  induction as generalizing bs i with
  | nil => simp at ha
  | cons a as ih =>
    cases bs with
    | nil => simp at hb
    | cons b bs =>
      cases i with
      | zero => rfl
      | succ i => simpa using ih (by simpa using ha) (by simpa using hb)

theorem getD_map {α β : Type} {f : α → β} {l : List α} {i : Nat} (da : α) {db : β}
    (h : i < l.length) : (l.map f).getD i db = f (l.getD i da) := by
  induction l generalizing i with
  | nil => simp at h
  | cons a l ih =>
    cases i with
    | zero => rfl
    | succ i => simpa using ih (by simpa using h)

theorem getD_range {n i d : Nat} (h : i < n) : (List.range n).getD i d = i := by
  rw [List.getD_eq_getElem _ _ (by simpa using h)]
  simp

theorem getD_replicate {α : Type} {n i : Nat} {x d : α} (h : i < n) :
    (List.replicate n x).getD i d = x := by
  rw [List.getD_eq_getElem _ _ (by simpa using h)]
  exact List.getElem_replicate x _

theorem getD_take {α : Type} {l : List α} {k i : Nat} {d : α} (h : i < k) :
    (l.take k).getD i d = l.getD i d := by
  simp [List.getD_eq_getElem?_getD, List.getElem?_take, h]

theorem getD_drop {α : Type} {l : List α} {n i : Nat} {d : α} :
    (l.drop n).getD i d = l.getD (n + i) d := by
  simp [List.getD_eq_getElem?_getD, List.getElem?_drop]

theorem flatten_length_uniform {α : Type} {m : Mat α} {c : Nat}
    (hc : ∀ row ∈ m, row.length = c) : m.flatten.length = m.length * c := by
  induction m with
  | nil => simp
  | cons row rest ih =>
    simp only [List.flatten_cons, List.length_append, List.length_cons]
    rw [hc row (by simp), ih (fun r hr => hc r (by simp [hr]))]
    ring

theorem flatten_getD_uniform {α : Type} {m : Mat α} {c q r : Nat} {d : α}
    (hc : ∀ row ∈ m, row.length = c) (hq : q < m.length) (hr : r < c) :
    m.flatten.getD (q * c + r) d = (m.getD q []).getD r d := by
  induction m generalizing q with
  | nil => simp at hq
  | cons row rest ih =>
    cases q with
    | zero =>
      simp only [List.flatten_cons, Nat.zero_mul, Nat.zero_add, List.getD_cons_zero]
      rw [getD_append_lt]
      rw [hc row (by simp)]
      exact hr
    | succ q =>
      have hrow : row.length = c := hc row (by simp)
      have harith : (q + 1) * c + r = row.length + (q * c + r) := by rw [hrow]; ring
      rw [List.flatten_cons, harith, getD_append_right_self]
      simpa using ih (fun r hr => hc r (by simp [hr])) (by simpa using hq)

theorem chunkRows_length {α : Type} {c count : Nat} {xs : List α} :
    (chunkRows c count xs).length = count := by
  simp [chunkRows]

theorem chunkRows_getD {α : Type} {c count b : Nat} {xs : List α} (hb : b < count) :
    (chunkRows c count xs).getD b [] = (xs.drop (b * c)).take c := by
  unfold chunkRows
  rw [getD_map 0 (by simpa using hb), getD_range hb]

theorem chunkRows_row_length {α : Type} {c count b : Nat} {xs : List α}
    (hb : b < count) (hlen : xs.length = count * c) :
    ((chunkRows c count xs).getD b []).length = c := by
  rw [chunkRows_getD hb, List.length_take, List.length_drop, hlen]
  have h1 : count * c - b * c = (count - b) * c := (Nat.sub_mul count b c).symm
  have h2 : c ≤ (count - b) * c := by
    conv_lhs => rw [← Nat.one_mul c]
    exact Nat.mul_le_mul_right c (by omega)
  omega

theorem chunkRows_getD_getD {α : Type} {c count b j : Nat} {xs : List α} {d : α}
    (hb : b < count) (hj : j < c) :
    ((chunkRows c count xs).getD b []).getD j d = xs.getD (b * c + j) d := by
  rw [chunkRows_getD hb, getD_take hj, getD_drop]

/-! ## Properties of the `topk` realisation -/

theorem insertRank_perm (xs : List LogProb) (i : Nat) (l : List Nat) :
    (insertRank xs i l).Perm (i :: l) := by
  induction l with
  | nil => exact List.Perm.refl _
  | cons j rest ih =>
    unfold insertRank
    split
    · exact List.Perm.refl _
    · exact (ih.cons j).trans (List.Perm.swap i j rest)

theorem argsortDesc_perm (xs : List LogProb) :
    (argsortDesc xs).Perm (List.range xs.length) := by
  unfold argsortDesc
  generalize List.range xs.length = l
  induction l with
  | nil => exact List.Perm.refl _
  | cons a t ih => exact (insertRank_perm xs a _).trans (ih.cons a)

theorem length_argsortDesc (xs : List LogProb) : (argsortDesc xs).length = xs.length := by
  simpa using (argsortDesc_perm xs).length_eq

theorem mem_argsortDesc_lt {xs : List LogProb} {i : Nat} (h : i ∈ argsortDesc xs) :
    i < xs.length := by
  simpa using (argsortDesc_perm xs).mem_iff.mp h

theorem nodup_argsortDesc (xs : List LogProb) : (argsortDesc xs).Nodup :=
  ((argsortDesc_perm xs).nodup_iff).mpr (List.nodup_range _)

theorem topkRow_length {xs : List LogProb} {k : Nat} (h : k ≤ xs.length) :
    (topkRow xs k).length = k := by
  simp only [topkRow, List.length_map, List.length_take, length_argsortDesc]
  omega

/-- The index chosen by `topk` for rank `j` of a row. -/
def topkIdx (xs : List LogProb) (k j : Nat) : Nat := ((argsortDesc xs).take k).getD j 0

theorem topkRow_getD {xs : List LogProb} {k j : Nat} {d : LogProb × Nat}
    (hj : j < k) (hk : k ≤ xs.length) :
    (topkRow xs k).getD j d = (xs.getD (topkIdx xs k j) ⊥, topkIdx xs k j) := by
  unfold topkRow topkIdx
  rw [getD_map 0]
  rw [List.length_take, length_argsortDesc]
  omega

theorem topkIdx_lt {xs : List LogProb} {k j : Nat} (hj : j < k) (hk : k ≤ xs.length) :
    topkIdx xs k j < xs.length := by
  have hlen : j < ((argsortDesc xs).take k).length := by
    rw [List.length_take, length_argsortDesc]; omega
  have hmem : topkIdx xs k j ∈ (argsortDesc xs).take k := by
    unfold topkIdx
    rw [List.getD_eq_getElem _ _ hlen]
    exact List.getElem_mem hlen
  exact mem_argsortDesc_lt (List.mem_of_mem_take hmem)

theorem topkRow_map_snd (xs : List LogProb) (k : Nat) :
    (topkRow xs k).map Prod.snd = (argsortDesc xs).take k := by
  simp [topkRow, List.map_map, Function.comp_def]

theorem topkRow_snd_nodup (xs : List LogProb) (k : Nat) :
    ((topkRow xs k).map Prod.snd).Nodup := by
  rw [topkRow_map_snd]
  exact (nodup_argsortDesc xs).sublist (List.take_sublist k _)

/-! ## Well-formedness of the loop state -/

theorem getD_mem {α : Type} {l : List α} {n : Nat} {d : α} (h : n < l.length) :
    l.getD n d ∈ l := by
  rw [List.getD_eq_getElem _ _ h]
  exact List.getElem_mem h

theorem getLastD_eq_getD {α : Type} (l : List α) (d : α) :
    l.getLastD d = l.getD (l.length - 1) d := by
  cases l with
  | nil => rfl
  | cons a t =>
    simp [List.getLastD_eq_getLast?, List.getLast?_eq_getElem?, List.getD_eq_getElem?_getD]

/-- A `(r, c)` tensor: `r` rows, each of length `c`. -/
def WFMat {α : Type} (m : Mat α) (r c : Nat) : Prop :=
  m.length = r ∧ ∀ row ∈ m, row.length = c

theorem WFMat.row_length {α : Type} {m : Mat α} {r c b : Nat} (h : WFMat m r c)
    (hb : b < r) : (m.getD b []).length = c :=
  h.2 _ (getD_mem (h.1 ▸ hb))

theorem WFMat.flatten_length {α : Type} {m : Mat α} {r c : Nat} (h : WFMat m r c) :
    m.flatten.length = r * c := by
  rw [flatten_length_uniform h.2, h.1]

theorem WFMat.flatten_getD {α : Type} {m : Mat α} {r c b k : Nat} {d : α} (h : WFMat m r c)
    (hb : b < r) (hk : k < c) : m.flatten.getD (b * c + k) d = (m.getD b []).getD k d :=
  flatten_getD_uniform h.2 (h.1 ▸ hb) hk

/-- The shape invariant maintained across loop iterations: `predictions`
and `backpointers` consist of `(batch_size, beam_size)` matrices (with
backpointer entries below `beam_size`), `last_log_probabilities` is
`(batch_size, beam_size)`, and `predictions` keeps exactly one more entry
than `backpointers`. -/
structure WFLoop (cfg : BeamSearch) (batchSize : Nat) (s : LoopState σ) : Prop where
  preds_ne : s.predictions ≠ []
  preds_wf : ∀ m ∈ s.predictions, WFMat m batchSize cfg.beamSize
  bp_wf : ∀ m ∈ s.backpointers, WFMat m batchSize cfg.beamSize
  bp_lt : ∀ m ∈ s.backpointers, ∀ row ∈ m, ∀ x ∈ row, x < cfg.beamSize
  lp_wf : WFMat s.lastLogProbabilities batchSize cfg.beamSize
  len_eq : s.predictions.length = s.backpointers.length + 1

theorem WFLoop.lastPreds_length [Inhabited σ] {cfg : BeamSearch} {batchSize : Nat}
    {s : LoopState σ} (h : WFLoop cfg batchSize s) :
    (lastPredsOf s).length = batchSize * cfg.beamSize := by
  unfold lastPredsOf
  have hmem : s.predictions.getLastD [] ∈ s.predictions := by
    rw [getLastD_eq_getD]
    exact getD_mem (by
      cases hp : s.predictions with
      | nil => exact absurd hp h.preds_ne
      | cons a t => simp)
  exact (h.preds_wf _ hmem).flatten_length

/-! ## Facts about the forced-end distribution -/

theorem length_logProbsAfterEnd {numClasses endIndex : Nat} :
    (logProbsAfterEnd numClasses endIndex).length = numClasses := by
  simp [logProbsAfterEnd]

theorem logProbsAfterEnd_getD_end {numClasses endIndex : Nat} (h : endIndex < numClasses) :
    (logProbsAfterEnd numClasses endIndex).getD endIndex ⊥ = 0 := by
  unfold logProbsAfterEnd
  rw [getD_map 0 (by simpa using h), getD_range h]
  simp

theorem logProbsAfterEnd_getD_ne {numClasses endIndex c : Nat} (h : c ≠ endIndex) :
    (logProbsAfterEnd numClasses endIndex).getD c ⊥ = ⊥ := by
  by_cases hc : c < numClasses
  · unfold logProbsAfterEnd
    rw [getD_map 0 (by simpa using hc), getD_range hc]
    simp [h]
  · rw [List.getD_eq_getElem?_getD]
    rw [List.getElem?_eq_none (by simpa [length_logProbsAfterEnd] using Nat.le_of_not_lt hc)]
    rfl

theorem cleanRow_length {endIndex numClasses lastPred : Nat} {row : List LogProb}
    (h : row.length = numClasses) :
    (cleanRow endIndex numClasses lastPred row).length = numClasses := by
  unfold cleanRow
  split
  · exact length_logProbsAfterEnd
  · exact h

/-! ## Unfolding the initialisation -/

theorem wfmat_of_pointwise {α : Type} {m : Mat α} {r c : Nat} (hr : m.length = r)
    (hc : ∀ b < r, (m.getD b []).length = c) : WFMat m r c := by
  refine ⟨hr, ?_⟩
  intro row hrow
  obtain ⟨i, hi, rfl⟩ := List.mem_iff_getElem.mp hrow
  have := hc i (hr ▸ hi)
  rwa [List.getD_eq_getElem _ _ hi] at this

theorem searchInit_ok {σ : Type} [Inhabited σ] {cfg : BeamSearch} {F : StepFn σ}
    {sp : List Nat} {r0 : Nat} {st : Store σ} {nc : Nat} {s0 : LoopState σ}
    (h : searchInit cfg F sp r0 st = .ok (nc, s0)) :
    (F sp r0 st).logProbs.length = sp.length ∧
    (∀ row ∈ (F sp r0 st).logProbs, row.length = nc) ∧
    nc = ((F sp r0 st).logProbs.headD []).length ∧
    cfg.perNodeBeamSize ≤ nc ∧ cfg.beamSize ≤ nc ∧ cfg.endIndex < nc ∧
    s0 = { predictions := [((F sp r0 st).logProbs.map fun row => topkRow row cfg.beamSize).map
             fun r => r.map Prod.snd]
           backpointers := []
           lastLogProbabilities := ((F sp r0 st).logProbs.map fun row =>
             topkRow row cfg.beamSize).map fun r => r.map Prod.fst
           stateRef := (F sp r0 st).stateRef
           store := storeSet (F sp r0 st).store (F sp r0 st).stateRef
             (expandStateContent cfg.beamSize
               (storeGet (F sp r0 st).store (F sp r0 st).stateRef)) } := by
  unfold searchInit at h
  dsimp only at h
  split_ifs at h with h1 h2 h3 h4
  rw [Except.ok.injEq, Prod.mk.injEq] at h
  obtain ⟨hnc, hs0⟩ := h
  subst hnc
  exact ⟨h1.1, h1.2, rfl, Nat.le_of_not_lt h2, h3, h4, hs0.symm⟩

theorem searchInit_wf {σ : Type} [Inhabited σ] {cfg : BeamSearch} {F : StepFn σ}
    {sp : List Nat} {r0 : Nat} {st : Store σ} {nc : Nat} {s0 : LoopState σ}
    (h : searchInit cfg F sp r0 st = .ok (nc, s0)) : WFLoop cfg sp.length s0 := by
  obtain ⟨hlen, hrows, -, -, hbeam, -, hs0⟩ := searchInit_ok h
  subst hs0
  refine ⟨by simp, ?_, by simp, by simp, ?_, by simp⟩
  · intro m hm
    simp only [List.mem_singleton] at hm
    subst hm
    refine ⟨by simpa using hlen, ?_⟩
    intro row hrow
    simp only [List.mem_map] at hrow
    obtain ⟨pr, hpr, rfl⟩ := hrow
    obtain ⟨row0, hrow0, rfl⟩ := hpr
    rw [List.length_map]
    exact topkRow_length (by rw [hrows row0 hrow0]; exact hbeam)
  · refine ⟨by simpa using hlen, ?_⟩
    intro row hrow
    simp only [List.mem_map] at hrow
    obtain ⟨pr, hpr, rfl⟩ := hrow
    obtain ⟨row0, hrow0, rfl⟩ := hpr
    rw [List.length_map]
    exact topkRow_length (by rw [hrows row0 hrow0]; exact hbeam)

theorem searchInit_lp_pointwise {σ : Type} [Inhabited σ] {cfg : BeamSearch} {F : StepFn σ}
    {sp : List Nat} {r0 : Nat} {st : Store σ} {nc : Nat} {s0 : LoopState σ}
    (h : searchInit cfg F sp r0 st = .ok (nc, s0)) {b k : Nat}
    (hb : b < sp.length) (hk : k < cfg.beamSize) :
    (s0.lastLogProbabilities.getD b []).getD k ⊥ =
      ((F sp r0 st).logProbs.getD b []).getD
        (((s0.predictions.getD 0 []).getD b []).getD k 0) ⊥ := by
  obtain ⟨hlen, hrows, -, -, hbeam, -, hs0⟩ := searchInit_ok h
  subst hs0
  have hblen : b < (F sp r0 st).logProbs.length := by rw [hlen]; exact hb
  have hrowlen : ((F sp r0 st).logProbs.getD b []).length = nc :=
    hrows _ (getD_mem hblen)
  have hkk : k < (topkRow ((F sp r0 st).logProbs.getD b []) cfg.beamSize).length := by
    rw [topkRow_length (by rw [hrowlen]; exact hbeam)]; exact hk
  simp only [List.getD_cons_zero]
  have eLP : (List.map (fun r => List.map Prod.fst r)
      (List.map (fun row => topkRow row cfg.beamSize) (F sp r0 st).logProbs)).getD b [] =
      List.map Prod.fst (topkRow ((F sp r0 st).logProbs.getD b []) cfg.beamSize) := by
    rw [getD_map ([] : List (LogProb × Nat)) (by simpa using hblen)]
    rw [getD_map ([] : List LogProb) hblen]
  have eTok : (List.map (fun r => List.map Prod.snd r)
      (List.map (fun row => topkRow row cfg.beamSize) (F sp r0 st).logProbs)).getD b [] =
      List.map Prod.snd (topkRow ((F sp r0 st).logProbs.getD b []) cfg.beamSize) := by
    rw [getD_map ([] : List (LogProb × Nat)) (by simpa using hblen)]
    rw [getD_map ([] : List LogProb) hblen]
  rw [eLP, eTok, getD_map ((⊥ : LogProb), 0) hkk, getD_map ((⊥ : LogProb), 0) hkk,
    topkRow_getD hk (by rw [hrowlen]; exact hbeam)]

/-! ## Unfolding one loop iteration -/

/-- The torch shape constraints that hold whenever one `beamStep`
succeeds. -/
structure StepHyps (cfg : BeamSearch) (stepFn : StepFn σ) (batchSize numClasses : Nat)
    (s : LoopState σ) : Prop where
  hlast : (lastPredsOf s).length = batchSize * cfg.beamSize
  hlen : (stepOut stepFn s).logProbs.length = batchSize * cfg.beamSize
  hrows : ∀ row ∈ (stepOut stepFn s).logProbs, row.length = numClasses
  hpn : cfg.perNodeBeamSize ≤ numClasses
  hbs : cfg.beamSize ≤ cfg.beamSize * cfg.perNodeBeamSize

theorem beamStep_ok_elim {σ : Type} [Inhabited σ] {cfg : BeamSearch} {stepFn : StepFn σ}
    {batchSize numClasses : Nat} {s s' : LoopState σ}
    (h : beamStep cfg stepFn batchSize numClasses s = .ok s') :
    StepHyps cfg stepFn batchSize numClasses s ∧
    s' = { predictions := s.predictions ++
             [stepRestrictedClasses cfg stepFn batchSize numClasses s]
           backpointers := s.backpointers ++
             [stepBackpointer cfg stepFn batchSize numClasses s]
           lastLogProbabilities := stepBeamLogProbs cfg stepFn batchSize numClasses s
           stateRef := (stepOut stepFn s).stateRef
           store := storeSet (stepOut stepFn s).store (stepOut stepFn s).stateRef
             (gatherStateContent batchSize cfg.beamSize
               (stepBackpointer cfg stepFn batchSize numClasses s)
               (storeGet (stepOut stepFn s).store (stepOut stepFn s).stateRef)) } := by
  unfold beamStep at h
  split_ifs at h with h1 h2 h3 h4
  exact ⟨⟨h1, h2.1, h2.2, h3, h4⟩, (Except.ok.inj h).symm⟩

section StepLemmas

variable {σ : Type} {cfg : BeamSearch} {stepFn : StepFn σ}
  {batchSize numClasses : Nat} {s : LoopState σ}

theorem stepCleaned_length (hy : StepHyps cfg stepFn batchSize numClasses s) :
    (stepCleaned cfg stepFn numClasses s).length = batchSize * cfg.beamSize := by
  unfold stepCleaned cleanedLogProbs
  rw [List.length_zipWith, hy.hlast, hy.hlen]
  omega

theorem stepCleaned_getD (hy : StepHyps cfg stepFn batchSize numClasses s) {i : Nat}
    (hi : i < batchSize * cfg.beamSize) :
    (stepCleaned cfg stepFn numClasses s).getD i [] =
      cleanRow cfg.endIndex numClasses ((lastPredsOf s).getD i 0)
        ((stepOut stepFn s).logProbs.getD i []) := by
  unfold stepCleaned cleanedLogProbs
  exact getD_zipWith (by rw [hy.hlast]; exact hi) (by rw [hy.hlen]; exact hi)

theorem stepCleaned_wf (hy : StepHyps cfg stepFn batchSize numClasses s) :
    WFMat (stepCleaned cfg stepFn numClasses s) (batchSize * cfg.beamSize) numClasses := by
  refine wfmat_of_pointwise (stepCleaned_length hy) ?_
  intro i hi
  rw [stepCleaned_getD hy hi]
  exact cleanRow_length (hy.hrows _ (getD_mem (by rw [hy.hlen]; exact hi)))

theorem stepTopPairs_getD (hy : StepHyps cfg stepFn batchSize numClasses s) {i : Nat}
    (hi : i < batchSize * cfg.beamSize) :
    (stepTopPairs cfg stepFn numClasses s).getD i [] =
      topkRow ((stepCleaned cfg stepFn numClasses s).getD i []) cfg.perNodeBeamSize := by
  unfold stepTopPairs
  exact getD_map [] (by rw [stepCleaned_length hy]; exact hi)

theorem stepTopPairs_length (hy : StepHyps cfg stepFn batchSize numClasses s) :
    (stepTopPairs cfg stepFn numClasses s).length = batchSize * cfg.beamSize := by
  unfold stepTopPairs
  rw [List.length_map]
  exact stepCleaned_length hy

theorem stepTopPairs_row_length (hy : StepHyps cfg stepFn batchSize numClasses s) {i : Nat}
    (hi : i < batchSize * cfg.beamSize) :
    ((stepTopPairs cfg stepFn numClasses s).getD i []).length = cfg.perNodeBeamSize := by
  rw [stepTopPairs_getD hy hi]
  exact topkRow_length (by rw [(stepCleaned_wf hy).row_length hi]; exact hy.hpn)

theorem stepSummed_length (hy : StepHyps cfg stepFn batchSize numClasses s)
    (hlp : WFMat s.lastLogProbabilities batchSize cfg.beamSize) :
    (stepSummed cfg stepFn numClasses s).length = batchSize * cfg.beamSize := by
  unfold stepSummed
  rw [List.length_zipWith, List.length_map, stepTopPairs_length hy, List.length_map,
    hlp.flatten_length]
  omega

theorem stepSummed_getD (hy : StepHyps cfg stepFn batchSize numClasses s)
    (hlp : WFMat s.lastLogProbabilities batchSize cfg.beamSize) {i : Nat}
    (hi : i < batchSize * cfg.beamSize) :
    (stepSummed cfg stepFn numClasses s).getD i [] =
      List.zipWith (· + ·)
        (List.map Prod.fst ((stepTopPairs cfg stepFn numClasses s).getD i []))
        (List.replicate cfg.perNodeBeamSize (s.lastLogProbabilities.flatten.getD i ⊥)) := by
  have hA : (List.map (fun r => List.map Prod.fst r)
      (stepTopPairs cfg stepFn numClasses s)).getD i [] =
      List.map Prod.fst ((stepTopPairs cfg stepFn numClasses s).getD i []) :=
    getD_map [] (by rw [stepTopPairs_length hy]; exact hi)
  have hB : (List.map (fun lp => List.replicate cfg.perNodeBeamSize lp)
      s.lastLogProbabilities.flatten).getD i [] =
      List.replicate cfg.perNodeBeamSize (s.lastLogProbabilities.flatten.getD i ⊥) :=
    getD_map ⊥ (by rw [hlp.flatten_length]; exact hi)
  unfold stepSummed
  rw [← hA, ← hB]
  exact getD_zipWith
    (by rw [List.length_map, stepTopPairs_length hy]; exact hi)
    (by rw [List.length_map, hlp.flatten_length]; exact hi)

theorem stepSummed_wf (hy : StepHyps cfg stepFn batchSize numClasses s)
    (hlp : WFMat s.lastLogProbabilities batchSize cfg.beamSize) :
    WFMat (stepSummed cfg stepFn numClasses s) (batchSize * cfg.beamSize)
      cfg.perNodeBeamSize := by
  refine wfmat_of_pointwise (stepSummed_length hy hlp) ?_
  intro i hi
  rw [stepSummed_getD hy hlp hi, List.length_zipWith, List.length_map,
    stepTopPairs_row_length hy hi, List.length_replicate]
  omega

theorem stepSummed_getD_getD (hy : StepHyps cfg stepFn batchSize numClasses s)
    (hlp : WFMat s.lastLogProbabilities batchSize cfg.beamSize) {i c : Nat}
    (hi : i < batchSize * cfg.beamSize) (hc : c < cfg.perNodeBeamSize) :
    ((stepSummed cfg stepFn numClasses s).getD i []).getD c ⊥ =
      (((stepTopPairs cfg stepFn numClasses s).getD i []).getD c (⊥, 0)).1 +
        s.lastLogProbabilities.flatten.getD i ⊥ := by
  rw [stepSummed_getD hy hlp hi]
  have hclen : c < (List.map Prod.fst ((stepTopPairs cfg stepFn numClasses s).getD i [])).length := by
    rw [List.length_map, stepTopPairs_row_length hy hi]; exact hc
  have h1 : (List.zipWith (· + ·)
      (List.map Prod.fst ((stepTopPairs cfg stepFn numClasses s).getD i []))
      (List.replicate cfg.perNodeBeamSize (s.lastLogProbabilities.flatten.getD i ⊥))).getD c ⊥ =
      (List.map Prod.fst ((stepTopPairs cfg stepFn numClasses s).getD i [])).getD c ⊥ +
        (List.replicate cfg.perNodeBeamSize (s.lastLogProbabilities.flatten.getD i ⊥)).getD c ⊥ :=
    getD_zipWith hclen (by rw [List.length_replicate]; exact hc)
  rw [h1, getD_map ((⊥ : LogProb), 0) (by rw [stepTopPairs_row_length hy hi]; exact hc),
    getD_replicate hc]

theorem stepReshapedSummed_wf (hy : StepHyps cfg stepFn batchSize numClasses s)
    (hlp : WFMat s.lastLogProbabilities batchSize cfg.beamSize) :
    WFMat (stepReshapedSummed cfg stepFn batchSize numClasses s) batchSize
      (cfg.beamSize * cfg.perNodeBeamSize) := by
  refine wfmat_of_pointwise chunkRows_length ?_
  intro b hb
  unfold stepReshapedSummed
  apply chunkRows_row_length hb
  rw [(stepSummed_wf hy hlp).flatten_length, Nat.mul_assoc]

theorem stepClasses_wf (hy : StepHyps cfg stepFn batchSize numClasses s) :
    WFMat ((stepTopPairs cfg stepFn numClasses s).map fun r => r.map Prod.snd)
      (batchSize * cfg.beamSize) cfg.perNodeBeamSize := by
  refine wfmat_of_pointwise (by rw [List.length_map, stepTopPairs_length hy]) ?_
  intro i hi
  rw [getD_map [] (by rw [stepTopPairs_length hy]; exact hi), List.length_map,
    stepTopPairs_row_length hy hi]

theorem stepGridPairs_length (hy : StepHyps cfg stepFn batchSize numClasses s)
    (hlp : WFMat s.lastLogProbabilities batchSize cfg.beamSize) :
    (stepGridPairs cfg stepFn batchSize numClasses s).length = batchSize := by
  unfold stepGridPairs
  rw [List.length_map, (stepReshapedSummed_wf hy hlp).1]

theorem stepGridPairs_getD (hy : StepHyps cfg stepFn batchSize numClasses s)
    (hlp : WFMat s.lastLogProbabilities batchSize cfg.beamSize) {b : Nat} (hb : b < batchSize) :
    (stepGridPairs cfg stepFn batchSize numClasses s).getD b [] =
      topkRow ((stepReshapedSummed cfg stepFn batchSize numClasses s).getD b [])
        cfg.beamSize := by
  unfold stepGridPairs
  exact getD_map [] (by rw [(stepReshapedSummed_wf hy hlp).1]; exact hb)

/-- The flattened rank (`restricted_beam_indices[b][k]`) of the candidate
that survives into slot `k` of batch element `b` at one step. -/
def stepIdx (cfg : BeamSearch) (stepFn : StepFn σ) (batchSize numClasses : Nat)
    (s : LoopState σ) (b k : Nat) : Nat :=
  topkIdx ((stepReshapedSummed cfg stepFn batchSize numClasses s).getD b []) cfg.beamSize k

/-- Everything one loop iteration records for beam slot `(b, k)`, in terms
of the flattened candidate rank `stepIdx`: the rank is in range, the
backpointer is its exact integer division by `per_node_beam_size`, the
chosen token is in the vocabulary, and the new cumulative log-probability
is the cleaned score of the chosen token added to the parent's cumulative
log-probability. -/
theorem beamStep_master (hy : StepHyps cfg stepFn batchSize numClasses s)
    (hlp : WFMat s.lastLogProbabilities batchSize cfg.beamSize)
    {b k : Nat} (hb : b < batchSize) (hk : k < cfg.beamSize) :
    stepIdx cfg stepFn batchSize numClasses s b k < cfg.beamSize * cfg.perNodeBeamSize ∧
    ((stepBeamIndices cfg stepFn batchSize numClasses s).getD b []).getD k 0 =
      stepIdx cfg stepFn batchSize numClasses s b k ∧
    ((stepBackpointer cfg stepFn batchSize numClasses s).getD b []).getD k 0 =
      stepIdx cfg stepFn batchSize numClasses s b k / cfg.perNodeBeamSize ∧
    stepIdx cfg stepFn batchSize numClasses s b k / cfg.perNodeBeamSize < cfg.beamSize ∧
    ((stepRestrictedClasses cfg stepFn batchSize numClasses s).getD b []).getD k 0 <
      numClasses ∧
    ((stepBeamLogProbs cfg stepFn batchSize numClasses s).getD b []).getD k ⊥ =
      ((stepCleaned cfg stepFn numClasses s).getD
          (b * cfg.beamSize +
            stepIdx cfg stepFn batchSize numClasses s b k / cfg.perNodeBeamSize) []).getD
        (((stepRestrictedClasses cfg stepFn batchSize numClasses s).getD b []).getD k 0) ⊥ +
        (s.lastLogProbabilities.getD b []).getD
          (stepIdx cfg stepFn batchSize numClasses s b k / cfg.perNodeBeamSize) ⊥ := by
  have hrswf := stepReshapedSummed_wf hy hlp
  have hGlen : ((stepReshapedSummed cfg stepFn batchSize numClasses s).getD b []).length =
      cfg.beamSize * cfg.perNodeBeamSize := hrswf.row_length hb
  have hkG : cfg.beamSize ≤
      ((stepReshapedSummed cfg stepFn batchSize numClasses s).getD b []).length := by
    rw [hGlen]; exact hy.hbs
  -- the flattened rank and its division
  have hidxlt : stepIdx cfg stepFn batchSize numClasses s b k <
      cfg.beamSize * cfg.perNodeBeamSize := by
    unfold stepIdx
    rw [← hGlen]
    exact topkIdx_lt hk hkG
  have hP : 0 < cfg.perNodeBeamSize := by
    rcases Nat.eq_zero_or_pos cfg.perNodeBeamSize with h0 | h0
    · rw [h0, Nat.mul_zero] at hidxlt; omega
    · exact h0
  have hplt : stepIdx cfg stepFn batchSize numClasses s b k / cfg.perNodeBeamSize <
      cfg.beamSize := by
    apply Nat.div_lt_of_lt_mul
    rw [Nat.mul_comm]
    exact hidxlt
  have hr : stepIdx cfg stepFn batchSize numClasses s b k % cfg.perNodeBeamSize <
      cfg.perNodeBeamSize := Nat.mod_lt _ hP
  -- the row of restricted_beam_indices
  have hBIrow : (stepBeamIndices cfg stepFn batchSize numClasses s).getD b [] =
      List.map Prod.snd
        (topkRow ((stepReshapedSummed cfg stepFn batchSize numClasses s).getD b [])
          cfg.beamSize) := by
    unfold stepBeamIndices
    rw [getD_map [] (by rw [stepGridPairs_length hy hlp]; exact hb),
      stepGridPairs_getD hy hlp hb]
  have hBIrowlen : ((stepBeamIndices cfg stepFn batchSize numClasses s).getD b []).length =
      cfg.beamSize := by
    rw [hBIrow, List.length_map, topkRow_length hkG]
  have hBI : ((stepBeamIndices cfg stepFn batchSize numClasses s).getD b []).getD k 0 =
      stepIdx cfg stepFn batchSize numClasses s b k := by
    rw [hBIrow, topkRow_map_snd]
    rfl
  -- the backpointer entry
  have hBIlen : (stepBeamIndices cfg stepFn batchSize numClasses s).length = batchSize := by
    unfold stepBeamIndices
    rw [List.length_map, stepGridPairs_length hy hlp]
  have hBP : ((stepBackpointer cfg stepFn batchSize numClasses s).getD b []).getD k 0 =
      stepIdx cfg stepFn batchSize numClasses s b k / cfg.perNodeBeamSize := by
    unfold stepBackpointer
    rw [getD_map [] (by rw [hBIlen]; exact hb),
      getD_map 0 (by rw [hBIrowlen]; exact hk), hBI]
  -- arithmetic identity to address the flattened grids
  have harith : b * (cfg.beamSize * cfg.perNodeBeamSize) +
      stepIdx cfg stepFn batchSize numClasses s b k =
      (b * cfg.beamSize +
        stepIdx cfg stepFn batchSize numClasses s b k / cfg.perNodeBeamSize) *
          cfg.perNodeBeamSize +
        stepIdx cfg stepFn batchSize numClasses s b k % cfg.perNodeBeamSize := by
    have hdm := Nat.div_add_mod (stepIdx cfg stepFn batchSize numClasses s b k)
      cfg.perNodeBeamSize
    have hexp : (b * cfg.beamSize +
        stepIdx cfg stepFn batchSize numClasses s b k / cfg.perNodeBeamSize) *
          cfg.perNodeBeamSize +
        stepIdx cfg stepFn batchSize numClasses s b k % cfg.perNodeBeamSize =
        b * (cfg.beamSize * cfg.perNodeBeamSize) +
          (cfg.perNodeBeamSize *
              (stepIdx cfg stepFn batchSize numClasses s b k / cfg.perNodeBeamSize) +
            stepIdx cfg stepFn batchSize numClasses s b k % cfg.perNodeBeamSize) := by
      ring
    rw [hexp, hdm]
  have hrowlt : b * cfg.beamSize +
      stepIdx cfg stepFn batchSize numClasses s b k / cfg.perNodeBeamSize <
      batchSize * cfg.beamSize := by
    have h1 : b * cfg.beamSize +
        stepIdx cfg stepFn batchSize numClasses s b k / cfg.perNodeBeamSize <
        (b + 1) * cfg.beamSize := by
      rw [Nat.succ_mul]
      omega
    have h2 : (b + 1) * cfg.beamSize ≤ batchSize * cfg.beamSize :=
      Nat.mul_le_mul_right _ (by omega)
    omega
  -- the selected token
  have hclasswf := stepClasses_wf hy
  have hRCrow : (stepRestrictedClasses cfg stepFn batchSize numClasses s).getD b [] =
      ((stepBeamIndices cfg stepFn batchSize numClasses s).getD b []).map
        (fun i => ((stepReshapedClasses cfg stepFn batchSize numClasses s).getD b []).getD i 0) := by
    unfold stepRestrictedClasses gatherDim1
    exact getD_zipWith
      (by unfold stepReshapedClasses; rw [chunkRows_length]; exact hb)
      (by rw [hBIlen]; exact hb)
  have hRC1 : ((stepRestrictedClasses cfg stepFn batchSize numClasses s).getD b []).getD k 0 =
      ((stepReshapedClasses cfg stepFn batchSize numClasses s).getD b []).getD
        (stepIdx cfg stepFn batchSize numClasses s b k) 0 := by
    rw [hRCrow, getD_map 0 (by rw [hBIrowlen]; exact hk), hBI]
  have hRC2 : ((stepReshapedClasses cfg stepFn batchSize numClasses s).getD b []).getD
      (stepIdx cfg stepFn batchSize numClasses s b k) 0 =
      ((stepTopPairs cfg stepFn numClasses s).map fun r => r.map Prod.snd).flatten.getD
        (b * (cfg.beamSize * cfg.perNodeBeamSize) +
          stepIdx cfg stepFn batchSize numClasses s b k) 0 := by
    unfold stepReshapedClasses
    exact chunkRows_getD_getD hb hidxlt
  have hRC3 : ((stepTopPairs cfg stepFn numClasses s).map fun r => r.map Prod.snd).flatten.getD
      (b * (cfg.beamSize * cfg.perNodeBeamSize) +
        stepIdx cfg stepFn batchSize numClasses s b k) 0 =
      (((stepTopPairs cfg stepFn numClasses s).map fun r => r.map Prod.snd).getD
          (b * cfg.beamSize +
            stepIdx cfg stepFn batchSize numClasses s b k / cfg.perNodeBeamSize) []).getD
        (stepIdx cfg stepFn batchSize numClasses s b k % cfg.perNodeBeamSize) 0 := by
    rw [harith]
    exact hclasswf.flatten_getD hrowlt hr
  have hTProw : (stepTopPairs cfg stepFn numClasses s).getD
      (b * cfg.beamSize +
        stepIdx cfg stepFn batchSize numClasses s b k / cfg.perNodeBeamSize) [] =
      topkRow ((stepCleaned cfg stepFn numClasses s).getD
        (b * cfg.beamSize +
          stepIdx cfg stepFn batchSize numClasses s b k / cfg.perNodeBeamSize) [])
        cfg.perNodeBeamSize := stepTopPairs_getD hy hrowlt
  have hcleanrowlen : ((stepCleaned cfg stepFn numClasses s).getD
      (b * cfg.beamSize +
        stepIdx cfg stepFn batchSize numClasses s b k / cfg.perNodeBeamSize) []).length =
      numClasses := (stepCleaned_wf hy).row_length hrowlt
  have hPle : cfg.perNodeBeamSize ≤ ((stepCleaned cfg stepFn numClasses s).getD
      (b * cfg.beamSize +
        stepIdx cfg stepFn batchSize numClasses s b k / cfg.perNodeBeamSize) []).length := by
    rw [hcleanrowlen]; exact hy.hpn
  have hRC4 : (((stepTopPairs cfg stepFn numClasses s).map fun r => r.map Prod.snd).getD
      (b * cfg.beamSize +
        stepIdx cfg stepFn batchSize numClasses s b k / cfg.perNodeBeamSize) []).getD
      (stepIdx cfg stepFn batchSize numClasses s b k % cfg.perNodeBeamSize) 0 =
      topkIdx ((stepCleaned cfg stepFn numClasses s).getD
        (b * cfg.beamSize +
          stepIdx cfg stepFn batchSize numClasses s b k / cfg.perNodeBeamSize) [])
        cfg.perNodeBeamSize
        (stepIdx cfg stepFn batchSize numClasses s b k % cfg.perNodeBeamSize) := by
    rw [getD_map [] (by rw [stepTopPairs_length hy]; exact hrowlt), hTProw, topkRow_map_snd]
    rfl
  have hRC : ((stepRestrictedClasses cfg stepFn batchSize numClasses s).getD b []).getD k 0 =
      topkIdx ((stepCleaned cfg stepFn numClasses s).getD
        (b * cfg.beamSize +
          stepIdx cfg stepFn batchSize numClasses s b k / cfg.perNodeBeamSize) [])
        cfg.perNodeBeamSize
        (stepIdx cfg stepFn batchSize numClasses s b k % cfg.perNodeBeamSize) := by
    rw [hRC1, hRC2, hRC3, hRC4]
  have htoklt : ((stepRestrictedClasses cfg stepFn batchSize numClasses s).getD b []).getD
      k 0 < numClasses := by
    rw [hRC]
    have hlt := topkIdx_lt hr hPle
    rwa [hcleanrowlen] at hlt
  -- the surviving log-probability
  have hLProw : (stepBeamLogProbs cfg stepFn batchSize numClasses s).getD b [] =
      List.map Prod.fst
        (topkRow ((stepReshapedSummed cfg stepFn batchSize numClasses s).getD b [])
          cfg.beamSize) := by
    unfold stepBeamLogProbs
    rw [getD_map [] (by rw [stepGridPairs_length hy hlp]; exact hb),
      stepGridPairs_getD hy hlp hb]
  have hLP1 : ((stepBeamLogProbs cfg stepFn batchSize numClasses s).getD b []).getD k ⊥ =
      ((stepReshapedSummed cfg stepFn batchSize numClasses s).getD b []).getD
        (stepIdx cfg stepFn batchSize numClasses s b k) ⊥ := by
    rw [hLProw, getD_map ((⊥ : LogProb), 0) (by rw [topkRow_length hkG]; exact hk),
      topkRow_getD hk hkG]
    rfl
  have hLP2 : ((stepReshapedSummed cfg stepFn batchSize numClasses s).getD b []).getD
      (stepIdx cfg stepFn batchSize numClasses s b k) ⊥ =
      (stepSummed cfg stepFn numClasses s).flatten.getD
        (b * (cfg.beamSize * cfg.perNodeBeamSize) +
          stepIdx cfg stepFn batchSize numClasses s b k) ⊥ := by
    unfold stepReshapedSummed
    exact chunkRows_getD_getD hb hidxlt
  have hLP3 : (stepSummed cfg stepFn numClasses s).flatten.getD
      (b * (cfg.beamSize * cfg.perNodeBeamSize) +
        stepIdx cfg stepFn batchSize numClasses s b k) ⊥ =
      ((stepSummed cfg stepFn numClasses s).getD
          (b * cfg.beamSize +
            stepIdx cfg stepFn batchSize numClasses s b k / cfg.perNodeBeamSize) []).getD
        (stepIdx cfg stepFn batchSize numClasses s b k % cfg.perNodeBeamSize) ⊥ := by
    rw [harith]
    exact (stepSummed_wf hy hlp).flatten_getD hrowlt hr
  have hLP4 : ((stepSummed cfg stepFn numClasses s).getD
      (b * cfg.beamSize +
        stepIdx cfg stepFn batchSize numClasses s b k / cfg.perNodeBeamSize) []).getD
      (stepIdx cfg stepFn batchSize numClasses s b k % cfg.perNodeBeamSize) ⊥ =
      (((stepTopPairs cfg stepFn numClasses s).getD
          (b * cfg.beamSize +
            stepIdx cfg stepFn batchSize numClasses s b k / cfg.perNodeBeamSize) []).getD
        (stepIdx cfg stepFn batchSize numClasses s b k % cfg.perNodeBeamSize) (⊥, 0)).1 +
        s.lastLogProbabilities.flatten.getD
          (b * cfg.beamSize +
            stepIdx cfg stepFn batchSize numClasses s b k / cfg.perNodeBeamSize) ⊥ :=
    stepSummed_getD_getD hy hlp hrowlt hr
  have hpair : ((stepTopPairs cfg stepFn numClasses s).getD
      (b * cfg.beamSize +
        stepIdx cfg stepFn batchSize numClasses s b k / cfg.perNodeBeamSize) []).getD
      (stepIdx cfg stepFn batchSize numClasses s b k % cfg.perNodeBeamSize) (⊥, 0) =
      (((stepCleaned cfg stepFn numClasses s).getD
          (b * cfg.beamSize +
            stepIdx cfg stepFn batchSize numClasses s b k / cfg.perNodeBeamSize) []).getD
        (topkIdx ((stepCleaned cfg stepFn numClasses s).getD
          (b * cfg.beamSize +
            stepIdx cfg stepFn batchSize numClasses s b k / cfg.perNodeBeamSize) [])
          cfg.perNodeBeamSize
          (stepIdx cfg stepFn batchSize numClasses s b k % cfg.perNodeBeamSize)) ⊥,
        topkIdx ((stepCleaned cfg stepFn numClasses s).getD
          (b * cfg.beamSize +
            stepIdx cfg stepFn batchSize numClasses s b k / cfg.perNodeBeamSize) [])
          cfg.perNodeBeamSize
          (stepIdx cfg stepFn batchSize numClasses s b k % cfg.perNodeBeamSize)) := by
    rw [hTProw]
    exact topkRow_getD hr hPle
  have hflatlp : s.lastLogProbabilities.flatten.getD
      (b * cfg.beamSize +
        stepIdx cfg stepFn batchSize numClasses s b k / cfg.perNodeBeamSize) ⊥ =
      (s.lastLogProbabilities.getD b []).getD
        (stepIdx cfg stepFn batchSize numClasses s b k / cfg.perNodeBeamSize) ⊥ :=
    hlp.flatten_getD hb hplt
  refine ⟨hidxlt, hBI, hBP, hplt, htoklt, ?_⟩
  rw [hLP1, hLP2, hLP3, hLP4, hpair, hflatlp, hRC]

theorem stepBeamIndices_wf (hy : StepHyps cfg stepFn batchSize numClasses s)
    (hlp : WFMat s.lastLogProbabilities batchSize cfg.beamSize) :
    WFMat (stepBeamIndices cfg stepFn batchSize numClasses s) batchSize cfg.beamSize := by
  refine wfmat_of_pointwise ?_ ?_
  · unfold stepBeamIndices
    rw [List.length_map, stepGridPairs_length hy hlp]
  · intro b hb
    have hrow : (stepBeamIndices cfg stepFn batchSize numClasses s).getD b [] =
        List.map Prod.snd
          (topkRow ((stepReshapedSummed cfg stepFn batchSize numClasses s).getD b [])
            cfg.beamSize) := by
      unfold stepBeamIndices
      rw [getD_map [] (by rw [stepGridPairs_length hy hlp]; exact hb),
        stepGridPairs_getD hy hlp hb]
    rw [hrow, List.length_map, topkRow_length
      (by rw [(stepReshapedSummed_wf hy hlp).row_length hb]; exact hy.hbs)]

theorem stepBeamLogProbs_wf (hy : StepHyps cfg stepFn batchSize numClasses s)
    (hlp : WFMat s.lastLogProbabilities batchSize cfg.beamSize) :
    WFMat (stepBeamLogProbs cfg stepFn batchSize numClasses s) batchSize cfg.beamSize := by
  refine wfmat_of_pointwise ?_ ?_
  · unfold stepBeamLogProbs
    rw [List.length_map, stepGridPairs_length hy hlp]
  · intro b hb
    have hrow : (stepBeamLogProbs cfg stepFn batchSize numClasses s).getD b [] =
        List.map Prod.fst
          (topkRow ((stepReshapedSummed cfg stepFn batchSize numClasses s).getD b [])
            cfg.beamSize) := by
      unfold stepBeamLogProbs
      rw [getD_map [] (by rw [stepGridPairs_length hy hlp]; exact hb),
        stepGridPairs_getD hy hlp hb]
    rw [hrow, List.length_map, topkRow_length
      (by rw [(stepReshapedSummed_wf hy hlp).row_length hb]; exact hy.hbs)]

theorem stepBackpointer_wf (hy : StepHyps cfg stepFn batchSize numClasses s)
    (hlp : WFMat s.lastLogProbabilities batchSize cfg.beamSize) :
    WFMat (stepBackpointer cfg stepFn batchSize numClasses s) batchSize cfg.beamSize := by
  refine wfmat_of_pointwise ?_ ?_
  · unfold stepBackpointer
    rw [List.length_map, (stepBeamIndices_wf hy hlp).1]
  · intro b hb
    unfold stepBackpointer
    rw [getD_map [] (by rw [(stepBeamIndices_wf hy hlp).1]; exact hb), List.length_map,
      (stepBeamIndices_wf hy hlp).row_length hb]

theorem stepRestrictedClasses_wf (hy : StepHyps cfg stepFn batchSize numClasses s)
    (hlp : WFMat s.lastLogProbabilities batchSize cfg.beamSize) :
    WFMat (stepRestrictedClasses cfg stepFn batchSize numClasses s) batchSize
      cfg.beamSize := by
  refine wfmat_of_pointwise ?_ ?_
  · unfold stepRestrictedClasses gatherDim1 stepReshapedClasses
    rw [List.length_zipWith, chunkRows_length, (stepBeamIndices_wf hy hlp).1]
    omega
  · intro b hb
    have hrow : (stepRestrictedClasses cfg stepFn batchSize numClasses s).getD b [] =
        ((stepBeamIndices cfg stepFn batchSize numClasses s).getD b []).map
          (fun i =>
            ((stepReshapedClasses cfg stepFn batchSize numClasses s).getD b []).getD i 0) := by
      unfold stepRestrictedClasses gatherDim1
      exact getD_zipWith
        (by unfold stepReshapedClasses; rw [chunkRows_length]; exact hb)
        (by rw [(stepBeamIndices_wf hy hlp).1]; exact hb)
    rw [hrow, List.length_map, (stepBeamIndices_wf hy hlp).row_length hb]

end StepLemmas

/-! ## Preservation of well-formedness along the loop -/

theorem forall_mem_of_pointwise {α : Type} {m : Mat α} {r c : Nat} (d : α) (hwf : WFMat m r c)
    {P : α → Prop} (h : ∀ b, b < r → ∀ k, k < c → P ((m.getD b []).getD k d)) :
    ∀ row ∈ m, ∀ x ∈ row, P x := by
  intro row hrow x hx
  obtain ⟨b, hb, rfl⟩ := List.mem_iff_getElem.mp hrow
  obtain ⟨k, hk, rfl⟩ := List.mem_iff_getElem.mp hx
  have hb' : b < r := hwf.1 ▸ hb
  have hk' : k < c := by rw [hwf.2 _ (List.getElem_mem hb)] at hk; exact hk
  have hP := h b hb' k hk'
  rwa [List.getD_eq_getElem _ _ hb, List.getD_eq_getElem _ _ hk] at hP

theorem beamStep_wf {σ : Type} [Inhabited σ] {cfg : BeamSearch} {stepFn : StepFn σ}
    {batchSize numClasses : Nat} {s s' : LoopState σ} (hwf : WFLoop cfg batchSize s)
    (h : beamStep cfg stepFn batchSize numClasses s = .ok s') : WFLoop cfg batchSize s' := by
  obtain ⟨hy, hs'⟩ := beamStep_ok_elim h
  subst hs'
  refine ⟨by simp, ?_, ?_, ?_, stepBeamLogProbs_wf hy hwf.lp_wf, ?_⟩
  · intro m hm
    rcases List.mem_append.mp hm with hm | hm
    · exact hwf.preds_wf m hm
    · rw [List.mem_singleton.mp hm]
      exact stepRestrictedClasses_wf hy hwf.lp_wf
  · intro m hm
    rcases List.mem_append.mp hm with hm | hm
    · exact hwf.bp_wf m hm
    · rw [List.mem_singleton.mp hm]
      exact stepBackpointer_wf hy hwf.lp_wf
  · intro m hm
    rcases List.mem_append.mp hm with hm | hm
    · exact hwf.bp_lt m hm
    · rw [List.mem_singleton.mp hm]
      refine forall_mem_of_pointwise 0 (stepBackpointer_wf hy hwf.lp_wf) ?_
      intro b hb k hk
      have hm := beamStep_master hy hwf.lp_wf hb hk
      rw [hm.2.2.1]
      exact hm.2.2.2.1
  · simp [hwf.len_eq]

theorem searchLoop_stopped {σ : Type} [Inhabited σ] {cfg : BeamSearch} {stepFn : StepFn σ}
    {batchSize numClasses : Nat} {s : LoopState σ} (h : stopCondition cfg s = true) :
    ∀ n, searchLoop cfg stepFn batchSize numClasses n s = .ok s
  | 0 => rfl
  | n + 1 => by unfold searchLoop; rw [if_pos h]

theorem searchLoopCalls_stopped {σ : Type} [Inhabited σ] {cfg : BeamSearch} {stepFn : StepFn σ}
    {batchSize numClasses : Nat} {s : LoopState σ} (h : stopCondition cfg s = true) :
    ∀ n, searchLoopCalls cfg stepFn batchSize numClasses n s = 0
  | 0 => rfl
  | n + 1 => by unfold searchLoopCalls; rw [if_pos h]

theorem searchLoop_wf {σ : Type} [Inhabited σ] {cfg : BeamSearch} {stepFn : StepFn σ}
    {batchSize numClasses : Nat} :
    ∀ n {s sF : LoopState σ}, WFLoop cfg batchSize s →
      searchLoop cfg stepFn batchSize numClasses n s = .ok sF → WFLoop cfg batchSize sF := by
  intro n
  induction n with
  | zero =>
    intro s sF hwf h
    rw [Except.ok.inj h] at hwf
    exact hwf
  | succ n ih =>
    intro s sF hwf h
    unfold searchLoop at h
    by_cases hstop : stopCondition cfg s
    · rw [if_pos hstop] at h
      rw [Except.ok.inj h] at hwf
      exact hwf
    · rw [if_neg hstop] at h
      cases hbs : beamStep cfg stepFn batchSize numClasses s with
      | ok s' =>
        rw [hbs] at h
        exact ih (beamStep_wf hwf hbs) h
      | error e =>
        rw [hbs] at h
        exact Except.noConfusion h

theorem searchLoop_succ {σ : Type} [Inhabited σ] (cfg : BeamSearch) (stepFn : StepFn σ)
    (batchSize numClasses n : Nat) (s : LoopState σ) :
    searchLoop cfg stepFn batchSize numClasses (n + 1) s =
      if stopCondition cfg s then .ok s
      else
        match beamStep cfg stepFn batchSize numClasses s with
        | .ok s' => searchLoop cfg stepFn batchSize numClasses n s'
        | .error e => .error e := rfl

theorem searchLoop_add {σ : Type} [Inhabited σ] {cfg : BeamSearch} {stepFn : StepFn σ}
    {batchSize numClasses : Nat} (m n : Nat) (s : LoopState σ) :
    searchLoop cfg stepFn batchSize numClasses (m + n) s =
      match searchLoop cfg stepFn batchSize numClasses m s with
      | .ok s' => searchLoop cfg stepFn batchSize numClasses n s'
      | .error e => .error e := by
  induction m generalizing s with
  | zero =>
    rw [Nat.zero_add]
    rfl
  | succ m ih =>
    rw [Nat.succ_add, searchLoop_succ, searchLoop_succ]
    by_cases hstop : stopCondition cfg s
    · rw [if_pos hstop, if_pos hstop]
      show _ = searchLoop cfg stepFn batchSize numClasses n s
      exact (searchLoop_stopped hstop n).symm
    · rw [if_neg hstop, if_neg hstop]
      cases hbs : beamStep cfg stepFn batchSize numClasses s with
      | ok s' =>
        show searchLoop cfg stepFn batchSize numClasses (m + n) s' =
          match searchLoop cfg stepFn batchSize numClasses m s' with
          | .ok s'' => searchLoop cfg stepFn batchSize numClasses n s''
          | .error e => .error e
        exact ih s'
      | error e => rfl

/-! ## The trace of the loop and cumulative chain log-probabilities -/

theorem getD_append_last {α : Type} {l : List α} {x : α} {d : α} :
    (l ++ [x]).getD l.length d = x := by
  have h := @getD_append_right_self α l [x] 0 d
  simp only [Nat.add_zero] at h
  rw [h]
  rfl

/-- Replay of the loop: the loop state after `t` iterations (frozen once
the early-stop condition holds, and frozen on error, which never arises
along a successful run). -/
def runStates {σ : Type} [Inhabited σ] (cfg : BeamSearch) (stepFn : StepFn σ)
    (batchSize numClasses : Nat) (s0 : LoopState σ) : Nat → LoopState σ
  | 0 => s0
  | t + 1 =>
    if stopCondition cfg (runStates cfg stepFn batchSize numClasses s0 t) then
      runStates cfg stepFn batchSize numClasses s0 t
    else
      match beamStep cfg stepFn batchSize numClasses
          (runStates cfg stepFn batchSize numClasses s0 t) with
      | .ok s' => s'
      | .error _ => runStates cfg stepFn batchSize numClasses s0 t

/-- The per-step score matrices of a run: at time `0` the first scoring
call's log-probabilities; at time `t + 1` the cleaned (forced-end
substituted) log-probabilities used by the iteration that produced
`predictions[t + 1]`. -/
def scoreAt {σ : Type} [Inhabited σ] (cfg : BeamSearch) (stepFn : StepFn σ)
    (batchSize numClasses : Nat) (startScores : Mat LogProb) (s0 : LoopState σ) :
    Nat → Mat LogProb
  | 0 => startScores
  | t + 1 =>
    stepCleaned cfg stepFn numClasses (runStates cfg stepFn batchSize numClasses s0 t)

/-- The cumulative log-probability of the hypothesis occupying beam slot
`k` of batch element `b` at time `t`: follow the recorded backpointers
back to time `0`, summing at each step the (cleaned) score of the token
recorded in `predictions` for the ancestor's slot. -/
def chainLP (scores : Nat → Mat LogProb) (preds bps : List (Mat Nat)) (beamSize b : Nat) :
    Nat → Nat → LogProb
  | 0, k => ((scores 0).getD b []).getD (((preds.getD 0 []).getD b []).getD k 0) ⊥
  | t + 1, k =>
    ((scores (t + 1)).getD (b * beamSize + ((bps.getD t []).getD b []).getD k 0) []).getD
      (((preds.getD (t + 1) []).getD b []).getD k 0) ⊥ +
      chainLP scores preds bps beamSize b t (((bps.getD t []).getD b []).getD k 0)

theorem scoreAt_succ {σ : Type} [Inhabited σ] (cfg : BeamSearch) (stepFn : StepFn σ)
    (batchSize numClasses : Nat) (startScores : Mat LogProb) (s0 : LoopState σ) (t : Nat) :
    scoreAt cfg stepFn batchSize numClasses startScores s0 (t + 1) =
      stepCleaned cfg stepFn numClasses
        (runStates cfg stepFn batchSize numClasses s0 t) := rfl

theorem chainLP_succ (scores : Nat → Mat LogProb) (preds bps : List (Mat Nat))
    (beamSize b t k : Nat) :
    chainLP scores preds bps beamSize b (t + 1) k =
      ((scores (t + 1)).getD (b * beamSize + ((bps.getD t []).getD b []).getD k 0) []).getD
        (((preds.getD (t + 1) []).getD b []).getD k 0) ⊥ +
        chainLP scores preds bps beamSize b t (((bps.getD t []).getD b []).getD k 0) := rfl

theorem chainLP_append (scores : Nat → Mat LogProb) {preds bps : List (Mat Nat)}
    (m m' : Mat Nat) (beamSize b : Nat) (hlen : bps.length + 1 = preds.length) :
    ∀ t, t < preds.length → ∀ k,
      chainLP scores (preds ++ [m]) (bps ++ [m']) beamSize b t k =
        chainLP scores preds bps beamSize b t k := by
  intro t
  induction t with
  | zero =>
    intro ht k
    unfold chainLP
    rw [getD_append_lt ht]
  | succ t ih =>
    intro ht k
    have hbp : t < bps.length := by omega
    rw [chainLP_succ, chainLP_succ, getD_append_lt hbp, getD_append_lt ht,
      ih (by omega) _]

theorem searchLoop_runStates {σ : Type} [Inhabited σ] {cfg : BeamSearch} {stepFn : StepFn σ}
    {batchSize numClasses : Nat} :
    ∀ n {s0 sF : LoopState σ}, searchLoop cfg stepFn batchSize numClasses n s0 = .ok sF →
      sF = runStates cfg stepFn batchSize numClasses s0 n := by
  intro n
  induction n with
  | zero =>
    intro s0 sF h
    exact (Except.ok.inj h).symm
  | succ n ih =>
    intro s0 sF h
    rw [searchLoop_add n 1] at h
    cases hmid : searchLoop cfg stepFn batchSize numClasses n s0 with
    | error e => rw [hmid] at h; exact Except.noConfusion h
    | ok sMid =>
      rw [hmid] at h
      replace h : searchLoop cfg stepFn batchSize numClasses 1 sMid = .ok sF := h
      have hMid := ih hmid
      unfold runStates
      rw [← hMid]
      by_cases hstop : stopCondition cfg sMid
      · rw [if_pos hstop]
        rw [searchLoop_stopped hstop 1] at h
        exact (Except.ok.inj h).symm
      · rw [if_neg hstop]
        rw [searchLoop_succ, if_neg hstop] at h
        cases hbs : beamStep cfg stepFn batchSize numClasses sMid with
        | ok s' =>
          simp only [hbs] at h ⊢
          exact (Except.ok.inj h).symm
        | error e =>
          simp only [hbs] at h
          exact Except.noConfusion h

/-- Bool helper: a condition that is not `true` is `false`. -/
theorem bool_eq_false {b : Bool} (h : ¬ b = true) : b = false := by
  cases b
  · rfl
  · exact absurd rfl h

/-- The chain invariant: along any successful prefix of the search loop,
every entry of `last_log_probabilities` is the backpointer-chain sum of
per-step scores; moreover, while the loop has not stopped, `predictions`
has exactly one matrix per completed timestep. -/
theorem searchLoop_chain {σ : Type} [Inhabited σ] {cfg : BeamSearch} {F stepFn : StepFn σ}
    {sp : List Nat} {r0 : Nat} {st : Store σ} {nc : Nat} {s0 : LoopState σ}
    (hinit : searchInit cfg F sp r0 st = .ok (nc, s0)) :
    ∀ n {sF : LoopState σ}, searchLoop cfg stepFn sp.length nc n s0 = .ok sF →
      (stopCondition cfg sF = false → sF.predictions.length = n + 1) ∧
      ∀ b, b < sp.length → ∀ k, k < cfg.beamSize →
        (sF.lastLogProbabilities.getD b []).getD k ⊥ =
          chainLP (scoreAt cfg stepFn sp.length nc (F sp r0 st).logProbs s0)
            sF.predictions sF.backpointers cfg.beamSize b (sF.predictions.length - 1) k := by
  intro n
  induction n with
  | zero =>
    intro sF h
    cases Except.ok.inj h
    obtain ⟨hl, hrows, hnc, hpn, hbeam, hend, hs0⟩ := searchInit_ok hinit
    constructor
    · intro _
      rw [hs0]
      rfl
    · intro b hb k hk
      have hlp := searchInit_lp_pointwise hinit hb hk
      have hlen1 : s0.predictions.length - 1 = 0 := by rw [hs0]; rfl
      rw [hlen1]
      unfold chainLP scoreAt
      exact hlp
  | succ n ih =>
    intro sF h
    rw [searchLoop_add n 1] at h
    cases hmid : searchLoop cfg stepFn sp.length nc n s0 with
    | error e => rw [hmid] at h; exact Except.noConfusion h
    | ok sMid =>
      rw [hmid] at h
      replace h : searchLoop cfg stepFn sp.length nc 1 sMid = .ok sF := h
      obtain ⟨hlenMid, hchainMid⟩ := ih hmid
      by_cases hstop : stopCondition cfg sMid
      · rw [searchLoop_stopped hstop 1] at h
        cases Except.ok.inj h
        refine ⟨?_, hchainMid⟩
        intro hfalse
        rw [hfalse] at hstop
        exact Bool.noConfusion hstop
      · rw [searchLoop_succ, if_neg hstop] at h
        cases hbs : beamStep cfg stepFn sp.length nc sMid with
        | error e =>
          simp only [hbs] at h
          exact Except.noConfusion h
        | ok s' =>
          simp only [hbs] at h
          cases Except.ok.inj h
          have hwfMid : WFLoop cfg sp.length sMid :=
            searchLoop_wf n (searchInit_wf hinit) hmid
          obtain ⟨hy, hs'⟩ := beamStep_ok_elim hbs
          have hplenMid : sMid.predictions.length = n + 1 :=
            hlenMid (bool_eq_false hstop)
          have hbpslenMid : sMid.backpointers.length = n := by
            have := hwfMid.len_eq
            omega
          have hscore : scoreAt cfg stepFn sp.length nc (F sp r0 st).logProbs s0 (n + 1) =
              stepCleaned cfg stepFn nc sMid := by
            rw [scoreAt_succ, ← searchLoop_runStates n hmid]
          constructor
          · intro _
            rw [hs']
            simp [hplenMid]
          · intro b hb k hk
            have hm := beamStep_master hy hwfMid.lp_wf hb hk
            obtain ⟨hidxlt, hBI, hBP, hplt, htoklt, hLP⟩ := hm
            rw [hs']
            simp only [List.length_append, List.length_singleton]
            have hlvl : sMid.predictions.length + 1 - 1 = n + 1 := by omega
            rw [hlvl, chainLP_succ]
            have hbpn : (sMid.backpointers ++
                [stepBackpointer cfg stepFn sp.length nc sMid]).getD n [] =
                stepBackpointer cfg stepFn sp.length nc sMid := by
              rw [← hbpslenMid]
              exact getD_append_last
            have hpredn : (sMid.predictions ++
                [stepRestrictedClasses cfg stepFn sp.length nc sMid]).getD (n + 1) [] =
                stepRestrictedClasses cfg stepFn sp.length nc sMid := by
              rw [← hplenMid]
              exact getD_append_last
            rw [hbpn, hpredn, hscore, hBP,
              chainLP_append _ _ _ _ _ (by omega) n (by omega) _]
            have hparent := hchainMid b hb
              (stepIdx cfg stepFn sp.length nc sMid b k / cfg.perNodeBeamSize) hplt
            have hlvlMid : sMid.predictions.length - 1 = n := by omega
            rw [hlvlMid] at hparent
            rw [← hparent]
            exact hLP

/-! ## Correctness of the backward reconstruction -/

/-- The beam slot occupied at prediction-step `t` by the hypothesis that
ends, at the final recorded step, in slot `k` of batch element `b`:
apply the recorded backpointer matrices from the top of the run down
to step `t`. -/
def ancestorSlot (bps : List (Mat Nat)) (t b k : Nat) : Nat :=
  ((bps.drop t).reverse).foldl (fun j m => (m.getD b []).getD j 0) k

theorem ancestorSlot_top {bps : List (Mat Nat)} {b k : Nat} :
    ancestorSlot bps bps.length b k = k := by
  unfold ancestorSlot
  rw [List.drop_length]
  rfl

theorem ancestorSlot_step {bps : List (Mat Nat)} {t b k : Nat} (h : t < bps.length) :
    ancestorSlot bps t b k =
      ((bps.getD t []).getD b []).getD (ancestorSlot bps (t + 1) b k) 0 := by
  unfold ancestorSlot
  rw [List.drop_eq_getElem_cons h, List.reverse_cons, List.foldl_append,
    List.getD_eq_getElem _ _ h]
  rfl

theorem gatherDim1_getD_row {m idx : Mat Nat} {b : Nat}
    (hbm : b < m.length) (hbi : b < idx.length) :
    (gatherDim1 m idx).getD b [] =
      (idx.getD b []).map (fun i => (m.getD b []).getD i 0) := by
  unfold gatherDim1
  exact getD_zipWith hbm hbi

theorem gatherDim1_getD {m idx : Mat Nat} {b k : Nat}
    (hbm : b < m.length) (hbi : b < idx.length) (hk : k < (idx.getD b []).length) :
    ((gatherDim1 m idx).getD b []).getD k 0 =
      (m.getD b []).getD ((idx.getD b []).getD k 0) 0 := by
  rw [gatherDim1_getD_row hbm hbi, getD_map 0 hk]

theorem gatherDim1_wf {m idx : Mat Nat} {r c c' : Nat} (hm : WFMat m r c')
    (hi : WFMat idx r c) : WFMat (gatherDim1 m idx) r c := by
  refine wfmat_of_pointwise ?_ ?_
  · unfold gatherDim1
    rw [List.length_zipWith, hm.1, hi.1]
    omega
  · intro b hb
    rw [gatherDim1_getD_row (hm.1 ▸ hb) (hi.1 ▸ hb), List.length_map, hi.row_length hb]

theorem reconstructLoop_spec {preds bps : List (Mat Nat)} {batchSize beamSize : Nat}
    (hwfp : ∀ m ∈ preds, WFMat m batchSize beamSize)
    (hwfb : ∀ m ∈ bps, WFMat m batchSize beamSize) :
    ∀ c, c ≤ bps.length → c < preds.length → ∀ curBp acc,
      WFMat curBp batchSize beamSize →
      (∀ b, b < batchSize → ∀ k, k < beamSize →
        (curBp.getD b []).getD k 0 = ancestorSlot bps c b k) →
      (∀ b, b < batchSize → ∀ k, k < beamSize →
        ((reconstructLoop preds bps c curBp acc).2.getD b []).getD k 0 =
          ancestorSlot bps 0 b k) ∧
      WFMat (reconstructLoop preds bps c curBp acc).2 batchSize beamSize ∧
      (reconstructLoop preds bps c curBp acc).1.length = acc.length + c ∧
      (∀ i, i < acc.length →
        (reconstructLoop preds bps c curBp acc).1.getD i [] = acc.getD i []) ∧
      (∀ j, j < c → ∀ b, b < batchSize → ∀ k, k < beamSize →
        (((reconstructLoop preds bps c curBp acc).1.getD (acc.length + j) []).getD
            b []).getD k 0 =
          ((preds.getD (c - j) []).getD b []).getD (ancestorSlot bps (c - j) b k) 0) := by
  intro c
  induction c with
  | zero =>
    intro hc hcp curBp acc hwf hval
    exact ⟨fun b hb k hk => hval b hb k hk, hwf, rfl, fun i hi => rfl, fun j hj => by omega⟩
  | succ t ih =>
    intro hc hcp curBp acc hwf hval
    have hstep : reconstructLoop preds bps (t + 1) curBp acc =
        reconstructLoop preds bps t (gatherDim1 (bps.getD t []) curBp)
          (acc ++ [gatherDim1 (preds.getD (t + 1) []) curBp]) := rfl
    rw [hstep]
    have hbt : t < bps.length := by omega
    have hbwf : WFMat (bps.getD t []) batchSize beamSize := hwfb _ (getD_mem hbt)
    have hpwf : WFMat (preds.getD (t + 1) []) batchSize beamSize :=
      hwfp _ (getD_mem (by omega))
    have hnewwf : WFMat (gatherDim1 (bps.getD t []) curBp) batchSize beamSize :=
      gatherDim1_wf hbwf hwf
    have hnewval : ∀ b, b < batchSize → ∀ k, k < beamSize →
        ((gatherDim1 (bps.getD t []) curBp).getD b []).getD k 0 =
          ancestorSlot bps t b k := by
      intro b hb k hk
      rw [gatherDim1_getD (hbwf.1 ▸ hb) (hwf.1 ▸ hb)
          (by rw [hwf.row_length hb]; exact hk),
        hval b hb k hk, ← ancestorSlot_step hbt]
    obtain ⟨hanc, hwf2, hlength, hpre, hmain⟩ :=
      ih (by omega) (by omega) (gatherDim1 (bps.getD t []) curBp)
        (acc ++ [gatherDim1 (preds.getD (t + 1) []) curBp]) hnewwf hnewval
    refine ⟨hanc, hwf2, ?_, ?_, ?_⟩
    · rw [hlength, List.length_append, List.length_singleton]
      omega
    · intro i hi
      rw [hpre i (by rw [List.length_append, List.length_singleton]; omega),
        getD_append_lt hi]
    · intro j hj b hb k hk
      cases j with
      | zero =>
        have hpos := hpre acc.length
          (by rw [List.length_append, List.length_singleton]; omega)
        simp only [Nat.add_zero, Nat.sub_zero]
        rw [hpos, getD_append_last,
          gatherDim1_getD (hpwf.1 ▸ hb) (hwf.1 ▸ hb)
            (by rw [hwf.row_length hb]; exact hk),
          hval b hb k hk]
      | succ j' =>
        have hmain' := hmain j' (by omega) b hb k hk
        have hidx : acc.length + (j' + 1) =
            (acc ++ [gatherDim1 (preds.getD (t + 1) []) curBp]).length + j' := by
          rw [List.length_append, List.length_singleton]
          omega
        have harg : t + 1 - (j' + 1) = t - j' := by omega
        rw [hidx, harg]
        exact hmain'

theorem getD_reverse {α : Type} {l : List α} {i : Nat} {d : α} (h : i < l.length) :
    l.reverse.getD i d = l.getD (l.length - 1 - i) d := by
  rw [List.getD_eq_getElem _ _ (by rw [List.length_reverse]; exact h),
    List.getD_eq_getElem _ _ (by omega), List.getElem_reverse]

theorem reconstruct_spec {preds bps : List (Mat Nat)} {batchSize beamSize : Nat}
    {out : List (Mat Nat)}
    (hwfp : ∀ m ∈ preds, WFMat m batchSize beamSize)
    (hwfb : ∀ m ∈ bps, WFMat m batchSize beamSize)
    (hlen : preds.length = bps.length + 1)
    (hbne : bps ≠ [])
    (hout : reconstruct preds bps = .ok out) :
    out.length = preds.length ∧
    ∀ t, t < preds.length → ∀ b, b < batchSize → ∀ k, k < beamSize →
      ((out.getD t []).getD b []).getD k 0 =
        ((preds.getD t []).getD b []).getD (ancestorSlot bps t b k) 0 := by
  have hbposlen : 0 < bps.length := List.length_pos.mpr hbne
  have hL2 : 2 ≤ preds.length := by omega
  have hpne : preds ≠ [] := by
    intro hp
    rw [hp] at hL2
    simp at hL2
  unfold reconstruct at hout
  rw [if_neg (by simp [hpne]), if_neg (by simp [hbne])] at hout
  have hout' := (Except.ok.inj hout).symm
  have hcurwf : WFMat (bps.getLastD []) batchSize beamSize := by
    rw [getLastD_eq_getD]
    exact hwfb _ (getD_mem (by omega))
  have hc2 : preds.length - 2 = bps.length - 1 := by omega
  have hcurval : ∀ b, b < batchSize → ∀ k, k < beamSize →
      ((bps.getLastD []).getD b []).getD k 0 =
        ancestorSlot bps (preds.length - 2) b k := by
    intro b hb k hk
    rw [hc2, ancestorSlot_step (by omega)]
    have htop : bps.length - 1 + 1 = bps.length := by omega
    rw [htop, ancestorSlot_top, getLastD_eq_getD]
  obtain ⟨hanc, hbpwf2, hlength, hpre, hmain⟩ :=
    reconstructLoop_spec hwfp hwfb (preds.length - 2) (by omega) (by omega)
      (bps.getLastD []) [preds.getLastD []] hcurwf hcurval
  have haccLen : (reconstructLoop preds bps (preds.length - 2) (bps.getLastD [])
      [preds.getLastD []]).1.length = preds.length - 1 := by
    rw [hlength, List.length_singleton]
    omega
  have houtLen : out.length = preds.length := by
    rw [hout', List.length_reverse, List.length_append, List.length_singleton, haccLen]
    omega
  refine ⟨houtLen, ?_⟩
  intro t ht b hb k hk
  have hfullLen : ((reconstructLoop preds bps (preds.length - 2) (bps.getLastD [])
      [preds.getLastD []]).1 ++
      [gatherDim1 (preds.getD 0 [])
        (reconstructLoop preds bps (preds.length - 2) (bps.getLastD [])
          [preds.getLastD []]).2]).length = preds.length := by
    rw [List.length_append, List.length_singleton, haccLen]
    omega
  have hrev : out.getD t [] = ((reconstructLoop preds bps (preds.length - 2)
      (bps.getLastD []) [preds.getLastD []]).1 ++
      [gatherDim1 (preds.getD 0 [])
        (reconstructLoop preds bps (preds.length - 2) (bps.getLastD [])
          [preds.getLastD []]).2]).getD (preds.length - 1 - t) [] := by
    rw [hout', getD_reverse (by rw [hfullLen]; exact ht), hfullLen]
  rw [hrev]
  by_cases ht0 : t = 0
  · -- the last element of the unreversed list: predictions[0] gathered at
    -- the fully propagated ancestors
    subst ht0
    have hidx : preds.length - 1 - 0 = (reconstructLoop preds bps (preds.length - 2)
        (bps.getLastD []) [preds.getLastD []]).1.length := by
      rw [haccLen]
      omega
    have hp0 : WFMat (preds.getD 0 []) batchSize beamSize :=
      hwfp _ (@getD_mem _ preds 0 [] (by omega))
    rw [hidx, getD_append_last,
      gatherDim1_getD (hp0.1 ▸ hb) (hbpwf2.1 ▸ hb)
        (by rw [hbpwf2.row_length hb]; exact hk),
      hanc b hb k hk]
  · by_cases httop : t = preds.length - 1
    · -- the seed element: predictions[-1] itself, and the top ancestor is
      -- the slot itself
      have hidx : preds.length - 1 - t = 0 := by omega
      rw [hidx, getD_append_lt (by rw [haccLen]; omega), hpre 0 (by simp)]
      have hanc_top : ancestorSlot bps t b k = k := by
        have htb : t = bps.length := by omega
        rw [htb]
        exact ancestorSlot_top
      rw [hanc_top, httop, getLastD_eq_getD]
      rfl
    · -- a middle element produced by the backward loop
      have ht1 : 1 ≤ t := by omega
      have htle : t ≤ preds.length - 2 := by omega
      have hj : preds.length - 1 - t = 1 + (preds.length - 2 - t) := by omega
      have hjlt : preds.length - 2 - t < preds.length - 2 := by omega
      have hmain' := hmain (preds.length - 2 - t) hjlt b hb k hk
      have harg : preds.length - 2 - (preds.length - 2 - t) = t := by omega
      rw [harg] at hmain'
      rw [hj, getD_append_lt (by rw [haccLen]; omega)]
      have hseed : (1 : Nat) + (preds.length - 2 - t) =
          ([preds.getLastD []] : List (Mat Nat)).length + (preds.length - 2 - t) := by
        rw [List.length_singleton]
      rw [hseed]
      exact hmain'

/-- Row `(b, k)` of the stacked output: the per-timestep tokens of that
beam slot in chronological order. -/
theorem stackTime_getD {ms : List (Mat Nat)} {batchSize beamSize b k : Nat}
    (hb : b < batchSize) (hk : k < beamSize) :
    ((stackTime ms batchSize beamSize).getD b []).getD k [] =
      ms.map (fun m => (m.getD b []).getD k 0) := by
  unfold stackTime
  rw [getD_map 0 (by simpa using hb), getD_range hb, getD_map 0 (by simpa using hk),
    getD_range hk]

/-! ## Unfolding `search` and classifying errors -/

theorem search_eq {σ : Type} [Inhabited σ] (cfg : BeamSearch) (sp : List Nat) (r0 : Nat)
    (st : Store σ) (stepFn : StepFn σ) (fs? : Option (StepFn σ)) :
    cfg.search sp r0 st stepFn fs? =
      match searchInit cfg (fs?.getD stepFn) sp r0 st with
      | .error e => .error e
      | .ok (numClasses, s0) =>
        match searchLoop cfg stepFn sp.length numClasses (cfg.maxSteps - 1) s0 with
        | .error e => .error e
        | .ok sF =>
          match reconstruct sF.predictions sF.backpointers with
          | .error e => .error e
          | .ok recon =>
            .ok ({ allPredictions := stackTime recon sp.length cfg.beamSize
                   logProbabilities := sF.lastLogProbabilities }, sF.store) := rfl

theorem beamStep_error {σ : Type} [Inhabited σ] {cfg : BeamSearch} {stepFn : StepFn σ}
    {batchSize numClasses : Nat} {s : LoopState σ} {e : SearchError}
    (h : beamStep cfg stepFn batchSize numClasses s = .error e) : e = .runtimeError := by
  unfold beamStep at h
  split_ifs at h
  all_goals exact (Except.error.inj h).symm

theorem searchLoop_error {σ : Type} [Inhabited σ] {cfg : BeamSearch} {stepFn : StepFn σ}
    {batchSize numClasses : Nat} :
    ∀ n {s : LoopState σ} {e : SearchError},
      searchLoop cfg stepFn batchSize numClasses n s = .error e → e = .runtimeError := by
  intro n
  induction n with
  | zero => intro s e h; exact Except.noConfusion h
  | succ n ih =>
    intro s e h
    rw [searchLoop_succ] at h
    by_cases hstop : stopCondition cfg s
    · rw [if_pos hstop] at h
      exact Except.noConfusion h
    · rw [if_neg hstop] at h
      cases hbs : beamStep cfg stepFn batchSize numClasses s with
      | ok s' =>
        simp only [hbs] at h
        exact ih h
      | error e' =>
        simp only [hbs] at h
        rw [(Except.error.inj h).symm]
        exact beamStep_error hbs

theorem reconstruct_error {preds bps : List (Mat Nat)} {e : SearchError}
    (h : reconstruct preds bps = .error e) : e = .indexError := by
  unfold reconstruct at h
  split_ifs at h
  all_goals exact (Except.error.inj h).symm

theorem reconstruct_ok_ne {preds bps : List (Mat Nat)} {out : List (Mat Nat)}
    (h : reconstruct preds bps = .ok out) : preds ≠ [] ∧ bps ≠ [] := by
  unfold reconstruct at h
  split_ifs at h with h1 h2
  constructor
  · intro hp
    exact h1 (by simp [hp])
  · intro hb
    exact h2 (by simp [hb])

theorem searchInit_config {σ : Type} [Inhabited σ] {cfg : BeamSearch} {F : StepFn σ}
    {sp : List Nat} {r0 : Nat} {st : Store σ}
    (hrect : (F sp r0 st).logProbs.length = sp.length ∧
      ∀ row ∈ (F sp r0 st).logProbs,
        row.length = ((F sp r0 st).logProbs.headD []).length)
    (hgt : cfg.perNodeBeamSize > ((F sp r0 st).logProbs.headD []).length) :
    searchInit cfg F sp r0 st = .error .configurationError := by
  unfold searchInit
  dsimp only
  rw [if_pos hrect, if_pos hgt]

theorem searchInit_error_config {σ : Type} [Inhabited σ] {cfg : BeamSearch} {F : StepFn σ}
    {sp : List Nat} {r0 : Nat} {st : Store σ}
    (h : searchInit cfg F sp r0 st = .error .configurationError) :
    cfg.perNodeBeamSize > ((F sp r0 st).logProbs.headD []).length := by
  unfold searchInit at h
  dsimp only at h
  split_ifs at h with h1 h2 h3 h4
  all_goals first
    | exact h2
    | exact Except.noConfusion h
    | exact SearchError.noConfusion (Except.error.inj h)

/-! ## Frame property of the store outside the references written through -/

theorem storeGet_set_ne {σ : Type} {st : Store σ} {i j : Nat} {c : StateContent σ}
    (h : i ≠ j) : storeGet (storeSet st i c) j = storeGet st j := by
  unfold storeGet storeSet
  simp [List.getD_eq_getElem?_getD, List.getElem?_set_ne h]

theorem searchLoop_frame {σ : Type} [Inhabited σ] {cfg : BeamSearch} {stepFn : StepFn σ}
    {batchSize numClasses : Nat} {r0 : Nat}
    (hstep : ∀ toks r s, (stepFn toks r s).stateRef ≠ r0 ∧
      storeGet (stepFn toks r s).store r0 = storeGet s r0) :
    ∀ n {s sF : LoopState σ}, s.stateRef ≠ r0 →
      searchLoop cfg stepFn batchSize numClasses n s = .ok sF →
      sF.stateRef ≠ r0 ∧ storeGet sF.store r0 = storeGet s.store r0 := by
  intro n
  induction n with
  | zero =>
    intro s sF hr h
    cases Except.ok.inj h
    exact ⟨hr, rfl⟩
  | succ n ih =>
    intro s sF hr h
    rw [searchLoop_succ] at h
    by_cases hstop : stopCondition cfg s
    · rw [if_pos hstop] at h
      cases Except.ok.inj h
      exact ⟨hr, rfl⟩
    · rw [if_neg hstop] at h
      cases hbs : beamStep cfg stepFn batchSize numClasses s with
      | error e =>
        simp only [hbs] at h
        exact Except.noConfusion h
      | ok s' =>
        simp only [hbs] at h
        obtain ⟨hy, hs'⟩ := beamStep_ok_elim hbs
        have hrefs : (stepOut stepFn s).stateRef ≠ r0 ∧
            storeGet (stepOut stepFn s).store r0 = storeGet s.store r0 :=
          hstep (lastPredsOf s) s.stateRef s.store
        have hs'ref : s'.stateRef ≠ r0 := by
          rw [hs']
          exact hrefs.1
        have hs'store : storeGet s'.store r0 = storeGet s.store r0 := by
          rw [hs']
          show storeGet (storeSet (stepOut stepFn s).store (stepOut stepFn s).stateRef _) r0 =
            storeGet s.store r0
          rw [storeGet_set_ne hrefs.1]
          exact hrefs.2
        obtain ⟨hf1, hf2⟩ := ih hs'ref h
        exact ⟨hf1, by rw [hf2, hs'store]⟩

theorem searchStepCalls_eq {σ : Type} [Inhabited σ] (cfg : BeamSearch) (sp : List Nat)
    (r0 : Nat) (st : Store σ) (stepFn : StepFn σ) (fs? : Option (StepFn σ)) :
    cfg.searchStepCalls sp r0 st stepFn fs? =
      match searchInit cfg (fs?.getD stepFn) sp r0 st with
      | .error _ => 0
      | .ok (nc, s0) =>
        searchLoopCalls cfg stepFn sp.length nc (cfg.maxSteps - 1) s0 := rfl

theorem reconstruct_nil_bps {preds : List (Mat Nat)} (hp : preds ≠ []) :
    reconstruct preds [] = .error .indexError := by
  unfold reconstruct
  rw [if_neg (by simp [hp])]
  rfl

/-- Decompose a successful `search` call whose initialisation and loop
results are known into its reconstruction and returned components. -/
theorem search_ok_components {σ : Type} [Inhabited σ] {cfg : BeamSearch}
    {stepFn : StepFn σ} {fs? : Option (StepFn σ)} {sp : List Nat} {r0 : Nat}
    {st : Store σ} {nc : Nat} {s0 sF : LoopState σ} {res : SearchResult}
    {store' : Store σ}
    (hinit : searchInit cfg (fs?.getD stepFn) sp r0 st = .ok (nc, s0))
    (hrun : searchLoop cfg stepFn sp.length nc (cfg.maxSteps - 1) s0 = .ok sF)
    (hsearch : cfg.search sp r0 st stepFn fs? = .ok (res, store')) :
    ∃ recon, reconstruct sF.predictions sF.backpointers = .ok recon ∧
      res = { allPredictions := stackTime recon sp.length cfg.beamSize
              logProbabilities := sF.lastLogProbabilities } ∧
      store' = sF.store := by
  rw [search_eq, hinit] at hsearch
  replace hsearch :
      (match searchLoop cfg stepFn sp.length nc (cfg.maxSteps - 1) s0 with
        | .error e => (.error e : Except SearchError (SearchResult × Store σ))
        | .ok sF' =>
          match reconstruct sF'.predictions sF'.backpointers with
          | .error e => .error e
          | .ok recon =>
            .ok ({ allPredictions := stackTime recon sp.length cfg.beamSize
                   logProbabilities := sF'.lastLogProbabilities }, sF'.store)) =
        .ok (res, store') := hsearch
  rw [hrun] at hsearch
  replace hsearch :
      (match reconstruct sF.predictions sF.backpointers with
        | .error e => (.error e : Except SearchError (SearchResult × Store σ))
        | .ok recon =>
          .ok ({ allPredictions := stackTime recon sp.length cfg.beamSize
                 logProbabilities := sF.lastLogProbabilities }, sF.store)) =
        .ok (res, store') := hsearch
  cases hrec : reconstruct sF.predictions sF.backpointers with
  | error e =>
    rw [hrec] at hsearch
    exact Except.noConfusion hsearch
  | ok recon =>
    rw [hrec] at hsearch
    replace hsearch :
        (.ok ({ allPredictions := stackTime recon sp.length cfg.beamSize
                logProbabilities := sF.lastLogProbabilities }, sF.store) :
          Except SearchError (SearchResult × Store σ)) = .ok (res, store') := hsearch
    have hpair := Except.ok.inj hsearch
    exact ⟨recon, rfl, (congrArg Prod.fst hpair).symm, (congrArg Prod.snd hpair).symm⟩

/-! ## A concrete scenario driving the witnesses

Batch size 1, beam width 2, per-node beam 2, vocabulary `{0, 1, 2}` with
end token `0`, at most 4 steps.  The scoring function always returns the
scores `(-1, -2, -5)`, so the end token is ranked first and token `1`
second; the search records two steps and then stops early because every
slot last predicted the end token.  The scoring function returns its
input state reference, so the state dictionary is shared (aliased) with
the caller. -/

def cfgW : BeamSearch :=
  { endIndex := 0, maxSteps := 4, beamSize := 2, perNodeBeamSize := 2 }

def rowW : List LogProb := [((-1 : ℤ) : LogProb), ((-2 : ℤ) : LogProb), ((-5 : ℤ) : LogProb)]

def stepW : StepFn Nat := fun toks r st =>
  { logProbs := toks.map fun _ => rowW, stateRef := r, store := st }

def storeW : Store Nat := [[("mem", [5])]]

/-- The loop state right after initialisation on this scenario. -/
def s0W : LoopState Nat :=
  { predictions := [[[0, 1]]], backpointers := [],
    lastLogProbabilities := [[((-1 : ℤ) : LogProb), ((-2 : ℤ) : LogProb)]],
    stateRef := 0, store := [[("mem", [5, 5])]] }

/-- The loop state after the single recorded loop iteration. -/
def sFW : LoopState Nat :=
  { predictions := [[[0, 1]], [[0, 0]]], backpointers := [[[0, 1]]],
    lastLogProbabilities := [[((-1 : ℤ) : LogProb), ((-3 : ℤ) : LogProb)]],
    stateRef := 0, store := [[("mem", [5, 5])]] }

/-- The pair `search` returns on this scenario. -/
def resW : SearchResult :=
  { allPredictions := [[[0, 0], [1, 0]]],
    logProbabilities := [[((-1 : ℤ) : LogProb), ((-3 : ℤ) : LogProb)]] }

/-- The scenario with `max_steps = 1`: the loop body never runs. -/
def cfgW1 : BeamSearch :=
  { endIndex := 0, maxSteps := 1, beamSize := 2, perNodeBeamSize := 2 }

/-- The scenario with `per_node_beam_size` larger than the vocabulary. -/
def cfgC7 : BeamSearch :=
  { endIndex := 0, maxSteps := 4, beamSize := 2, perNodeBeamSize := 5 }

/-- A scoring function that never aliases: it returns a freshly allocated
state dictionary (reference `st.length + 1`, never the caller's `0`) and
leaves the content at reference `0` untouched. -/
def stepF10 : StepFn Nat := fun toks r st =>
  { logProbs := toks.map fun _ => rowW, stateRef := st.length + 1,
    store := st ++ [[], storeGet st r] }

/-! ## The claims -/

/-- **C1** (invariants): throughout the search loop, for every batch
element `b` and beam slot `k`, `last_log_probabilities[b, k]` equals the
cumulative log-probability of the hypothesis ending at
`predictions[t][b, k]`: the backpointer-chain sum, over all steps back to
the first, of the per-step scores (after forced-end replacement, the
`scoreAt` trace) of the tokens recorded in `predictions`. -/
theorem c1_last_log_probabilities_are_chain_sums {σ : Type} [Inhabited σ]
    {cfg : BeamSearch} {F stepFn : StepFn σ} {sp : List Nat} {r0 : Nat} {st : Store σ}
    {nc : Nat} {s0 sF : LoopState σ} {t : Nat}
    (hinit : searchInit cfg F sp r0 st = .ok (nc, s0))
    (hrun : searchLoop cfg stepFn sp.length nc t s0 = .ok sF) :
    ∀ b, b < sp.length → ∀ k, k < cfg.beamSize →
      (sF.lastLogProbabilities.getD b []).getD k ⊥ =
        chainLP (scoreAt cfg stepFn sp.length nc (F sp r0 st).logProbs s0)
          sF.predictions sF.backpointers cfg.beamSize b (sF.predictions.length - 1) k :=
  (searchLoop_chain hinit t hrun).2

/-- Witness for C1: the 1-batch, 2-beam scenario after its one recorded
loop iteration. -/
theorem c1_witness :
    searchInit cfgW stepW [1] 0 storeW = .ok (3, s0W) ∧
    searchLoop cfgW stepW 1 3 1 s0W = .ok sFW ∧
    ∀ b, b < ([1] : List Nat).length → ∀ k, k < cfgW.beamSize →
      (sFW.lastLogProbabilities.getD b []).getD k ⊥ =
        chainLP (scoreAt cfgW stepW 1 3 (stepW [1] 0 storeW).logProbs s0W)
          sFW.predictions sFW.backpointers cfgW.beamSize b (sFW.predictions.length - 1) k :=
  ⟨rfl, rfl, c1_last_log_probabilities_are_chain_sums
    (show searchInit cfgW stepW [1] 0 storeW = .ok (3, s0W) from rfl)
    (show searchLoop cfgW stepW ([1] : List Nat).length 3 1 s0W = .ok sFW from rfl)⟩

/-- **C3** (numerical): at every timestep `t ≥ 1`, for every surviving
candidate, the recorded backpointer is the exact integer (floor) division
of the candidate's flattened rank (`restricted_beam_indices`, `stepIdx`)
in the `beam_size * per_node_beam_size` candidate grid by
`per_node_beam_size`: the rank is in range, the quotient is an integer in
`0 .. beam_size - 1`, and quotient and remainder recompose the rank
exactly. -/
theorem c3_backpointer_is_exact_integer_division {σ : Type} [Inhabited σ]
    {cfg : BeamSearch} {stepFn : StepFn σ} {batchSize numClasses : Nat}
    {s s' : LoopState σ} (hwf : WFLoop cfg batchSize s)
    (hstep : beamStep cfg stepFn batchSize numClasses s = .ok s') :
    s'.backpointers = s.backpointers ++
      [stepBackpointer cfg stepFn batchSize numClasses s] ∧
    ∀ b, b < batchSize → ∀ k, k < cfg.beamSize →
      ((stepBeamIndices cfg stepFn batchSize numClasses s).getD b []).getD k 0 =
        stepIdx cfg stepFn batchSize numClasses s b k ∧
      ((stepBackpointer cfg stepFn batchSize numClasses s).getD b []).getD k 0 =
        stepIdx cfg stepFn batchSize numClasses s b k / cfg.perNodeBeamSize ∧
      stepIdx cfg stepFn batchSize numClasses s b k <
        cfg.beamSize * cfg.perNodeBeamSize ∧
      stepIdx cfg stepFn batchSize numClasses s b k / cfg.perNodeBeamSize <
        cfg.beamSize ∧
      cfg.perNodeBeamSize *
          (stepIdx cfg stepFn batchSize numClasses s b k / cfg.perNodeBeamSize) +
          stepIdx cfg stepFn batchSize numClasses s b k % cfg.perNodeBeamSize =
        stepIdx cfg stepFn batchSize numClasses s b k ∧
      stepIdx cfg stepFn batchSize numClasses s b k % cfg.perNodeBeamSize <
        cfg.perNodeBeamSize := by
  obtain ⟨hy, hs'⟩ := beamStep_ok_elim hstep
  refine ⟨by rw [hs'], ?_⟩
  intro b hb k hk
  obtain ⟨hidxlt, hBI, hBP, hplt, -, -⟩ := beamStep_master hy hwf.lp_wf hb hk
  have hP : 0 < cfg.perNodeBeamSize := by
    rcases Nat.eq_zero_or_pos cfg.perNodeBeamSize with h0 | h0
    · rw [h0, Nat.mul_zero] at hidxlt
      omega
    · exact h0
  exact ⟨hBI, hBP, hidxlt, hplt,
    Nat.div_add_mod (stepIdx cfg stepFn batchSize numClasses s b k) cfg.perNodeBeamSize,
    Nat.mod_lt _ hP⟩

/-- Witness for C3: the scenario's single loop iteration. -/
theorem c3_witness :
    beamStep cfgW stepW 1 3 s0W = .ok sFW ∧
    sFW.backpointers = s0W.backpointers ++ [stepBackpointer cfgW stepW 1 3 s0W] ∧
    ((stepBackpointer cfgW stepW 1 3 s0W).getD 0 []).getD 1 0 =
      stepIdx cfgW stepW 1 3 s0W 0 1 / cfgW.perNodeBeamSize ∧
    stepIdx cfgW stepW 1 3 s0W 0 1 < cfgW.beamSize * cfgW.perNodeBeamSize := by
  have h := c3_backpointer_is_exact_integer_division
    (searchInit_wf (show searchInit cfgW stepW [1] 0 storeW = .ok (3, s0W) from rfl))
    (show beamStep cfgW stepW 1 3 s0W = .ok sFW from rfl)
  have h01 := h.2 0 (by decide) 1 (by decide)
  exact ⟨rfl, h.1, h01.2.1, h01.2.2.1⟩

/-- **C5** (invariants): once a hypothesis's last chosen token equals
`end_index`, the distribution substituted for its scores is the
forced-end distribution (`0` at `end_index`, `-infinity` elsewhere), so a
surviving continuation via the end token adds exactly `0` to its
cumulative log-probability, and a continuation via any other token has
cumulative log-probability `-infinity`. -/
theorem c5_forced_end_adds_zero {σ : Type} [Inhabited σ] {cfg : BeamSearch}
    {stepFn : StepFn σ} {batchSize numClasses : Nat} {s s' : LoopState σ}
    (hwf : WFLoop cfg batchSize s) (hend : cfg.endIndex < numClasses)
    (hstep : beamStep cfg stepFn batchSize numClasses s = .ok s') :
    (logProbsAfterEnd numClasses cfg.endIndex).getD cfg.endIndex ⊥ = 0 ∧
    (∀ c, c ≠ cfg.endIndex → (logProbsAfterEnd numClasses cfg.endIndex).getD c ⊥ = ⊥) ∧
    ∀ b, b < batchSize → ∀ k, k < cfg.beamSize →
      (lastPredsOf s).getD (b * cfg.beamSize +
          ((stepBackpointer cfg stepFn batchSize numClasses s).getD b []).getD k 0) 0 =
        cfg.endIndex →
      (stepCleaned cfg stepFn numClasses s).getD (b * cfg.beamSize +
          ((stepBackpointer cfg stepFn batchSize numClasses s).getD b []).getD k 0) [] =
        logProbsAfterEnd numClasses cfg.endIndex ∧
      (((s'.predictions.getLastD []).getD b []).getD k 0 = cfg.endIndex →
        (s'.lastLogProbabilities.getD b []).getD k ⊥ =
          (s.lastLogProbabilities.getD b []).getD
            (((stepBackpointer cfg stepFn batchSize numClasses s).getD b []).getD k 0) ⊥) ∧
      (((s'.predictions.getLastD []).getD b []).getD k 0 ≠ cfg.endIndex →
        (s'.lastLogProbabilities.getD b []).getD k ⊥ = ⊥) := by
  obtain ⟨hy, hs'⟩ := beamStep_ok_elim hstep
  refine ⟨logProbsAfterEnd_getD_end hend, fun c hc => logProbsAfterEnd_getD_ne hc, ?_⟩
  intro b hb k hk hended
  obtain ⟨hidxlt, hBI, hBP, hplt, htoklt, hLP⟩ := beamStep_master hy hwf.lp_wf hb hk
  have hrowlt : b * cfg.beamSize +
      stepIdx cfg stepFn batchSize numClasses s b k / cfg.perNodeBeamSize <
      batchSize * cfg.beamSize := by
    have h1 : b * cfg.beamSize +
        stepIdx cfg stepFn batchSize numClasses s b k / cfg.perNodeBeamSize <
        (b + 1) * cfg.beamSize := by
      rw [Nat.succ_mul]
      omega
    have h2 : (b + 1) * cfg.beamSize ≤ batchSize * cfg.beamSize :=
      Nat.mul_le_mul_right _ (by omega)
    omega
  rw [hBP] at hended
  have hclean : (stepCleaned cfg stepFn numClasses s).getD (b * cfg.beamSize +
      stepIdx cfg stepFn batchSize numClasses s b k / cfg.perNodeBeamSize) [] =
      logProbsAfterEnd numClasses cfg.endIndex := by
    rw [stepCleaned_getD hy hrowlt]
    unfold cleanRow
    rw [if_pos hended]
  have hlastpred : (s'.predictions.getLastD []).getD b [] =
      (stepRestrictedClasses cfg stepFn batchSize numClasses s).getD b [] := by
    rw [hs']
    show ((s.predictions ++ [stepRestrictedClasses cfg stepFn batchSize numClasses s]).getLastD []).getD b [] = _
    simp
  have hLP' : (s'.lastLogProbabilities.getD b []).getD k ⊥ =
      (logProbsAfterEnd numClasses cfg.endIndex).getD
        (((stepRestrictedClasses cfg stepFn batchSize numClasses s).getD b []).getD k 0) ⊥ +
        (s.lastLogProbabilities.getD b []).getD
          (stepIdx cfg stepFn batchSize numClasses s b k / cfg.perNodeBeamSize) ⊥ := by
    rw [hs']
    show ((stepBeamLogProbs cfg stepFn batchSize numClasses s).getD b []).getD k ⊥ = _
    rw [hLP, hclean]
  refine ⟨by rw [hBP]; exact hclean, ?_, ?_⟩
  · intro htok
    rw [hlastpred] at htok
    rw [hLP', htok, logProbsAfterEnd_getD_end hend, zero_add, hBP]
  · intro htok
    rw [hlastpred] at htok
    rw [hLP', logProbsAfterEnd_getD_ne htok, WithBot.bot_add]

/-- Witness for C5: in the scenario, slot 0 has already emitted the end
token after the first step, survives via the forced end token, and its
cumulative log-probability is unchanged. -/
theorem c5_witness :
    beamStep cfgW stepW 1 3 s0W = .ok sFW ∧
    (lastPredsOf s0W).getD (0 * cfgW.beamSize +
      ((stepBackpointer cfgW stepW 1 3 s0W).getD 0 []).getD 0 0) 0 = cfgW.endIndex ∧
    ((sFW.predictions.getLastD []).getD 0 []).getD 0 0 = cfgW.endIndex ∧
    (sFW.lastLogProbabilities.getD 0 []).getD 0 ⊥ =
      (s0W.lastLogProbabilities.getD 0 []).getD
        (((stepBackpointer cfgW stepW 1 3 s0W).getD 0 []).getD 0 0) ⊥ := by
  have h := c5_forced_end_adds_zero
    (searchInit_wf (show searchInit cfgW stepW [1] 0 storeW = .ok (3, s0W) from rfl))
    (show cfgW.endIndex < 3 by decide)
    (show beamStep cfgW stepW 1 3 s0W = .ok sFW from rfl)
  have hcase := h.2.2 0 (by decide) 0 (by decide) (by decide)
  exact ⟨rfl, by decide, by decide, hcase.2.1 (by decide)⟩

/-- **C6** (invariants): at every timestep of every search call, each
recorded `predictions[t]` matrix and `last_log_probabilities` have exactly
`beam_size` entries per batch element — never more and never fewer. -/
theorem c6_beam_width_invariant {σ : Type} [Inhabited σ] {cfg : BeamSearch}
    {F stepFn : StepFn σ} {sp : List Nat} {r0 : Nat} {st : Store σ} {nc : Nat}
    {s0 sF : LoopState σ} {t : Nat}
    (hinit : searchInit cfg F sp r0 st = .ok (nc, s0))
    (hrun : searchLoop cfg stepFn sp.length nc t s0 = .ok sF) :
    (∀ m ∈ sF.predictions, m.length = sp.length ∧
      ∀ row ∈ m, row.length = cfg.beamSize) ∧
    sF.lastLogProbabilities.length = sp.length ∧
    ∀ row ∈ sF.lastLogProbabilities, row.length = cfg.beamSize := by
  have hwf := searchLoop_wf t (searchInit_wf hinit) hrun
  exact ⟨fun m hm => ⟨(hwf.preds_wf m hm).1, (hwf.preds_wf m hm).2⟩,
    hwf.lp_wf.1, hwf.lp_wf.2⟩

/-- Witness for C6: the scenario's run after its recorded iteration. -/
theorem c6_witness :
    searchInit cfgW stepW [1] 0 storeW = .ok (3, s0W) ∧
    searchLoop cfgW stepW 1 3 1 s0W = .ok sFW ∧
    (∀ m ∈ sFW.predictions, m.length = ([1] : List Nat).length ∧
      ∀ row ∈ m, row.length = cfgW.beamSize) ∧
    sFW.lastLogProbabilities.length = ([1] : List Nat).length ∧
    ∀ row ∈ sFW.lastLogProbabilities, row.length = cfgW.beamSize := by
  have h := c6_beam_width_invariant
    (show searchInit cfgW stepW [1] 0 storeW = .ok (3, s0W) from rfl)
    (show searchLoop cfgW stepW 1 3 1 s0W = .ok sFW from rfl)
  exact ⟨rfl, rfl, h.1, h.2.1, h.2.2⟩

/-- **C9** (determinism): `search` is a pure function of its arguments:
two invocations with identical configuration, start predictions, start
state and (pointwise equal) scoring functions produce identical
predictions, log-probabilities and final store. -/
theorem c9_search_deterministic {σ : Type} [Inhabited σ] (cfg : BeamSearch)
    (sp : List Nat) (r0 : Nat) (st : Store σ) (stepFn₁ stepFn₂ F₁ F₂ : StepFn σ)
    (hstep : ∀ toks r s, stepFn₁ toks r s = stepFn₂ toks r s)
    (hfirst : ∀ toks r s, F₁ toks r s = F₂ toks r s) :
    cfg.search sp r0 st stepFn₁ (some F₁) = cfg.search sp r0 st stepFn₂ (some F₂) := by
  have h1 : stepFn₁ = stepFn₂ := funext fun a => funext fun b => funext fun c => hstep a b c
  have h2 : F₁ = F₂ := funext fun a => funext fun b => funext fun c => hfirst a b c
  rw [h1, h2]

/-- Witness for C9: two invocations on the concrete scenario coincide. -/
theorem c9_witness :
    cfgW.search [1] 0 storeW stepW (some stepW) =
      cfgW.search [1] 0 storeW stepW (some stepW) :=
  c9_search_deterministic cfgW [1] 0 storeW stepW stepW stepW stepW
    (fun _ _ _ => rfl) (fun _ _ _ => rfl)

/-- **C2** (functional correctness): for every batch element, beam slot
and position `t` of the returned predictions tensor, the token at
position `t` equals the token stored in `predictions[t]` at the slot
obtained by recursively applying the recorded backpointers from the final
beam slot back to step `t` (`ancestorSlot`), and the assembled sequence
is in chronological order (position `t` holds step `t`'s token, one
position per recorded step). -/
theorem c2_reconstruction_consistency {σ : Type} [Inhabited σ] {cfg : BeamSearch}
    {stepFn : StepFn σ} {fs? : Option (StepFn σ)} {sp : List Nat} {r0 : Nat}
    {st : Store σ} {nc : Nat} {s0 sF : LoopState σ} {res : SearchResult}
    {store' : Store σ}
    (hinit : searchInit cfg (fs?.getD stepFn) sp r0 st = .ok (nc, s0))
    (hrun : searchLoop cfg stepFn sp.length nc (cfg.maxSteps - 1) s0 = .ok sF)
    (hsearch : cfg.search sp r0 st stepFn fs? = .ok (res, store')) :
    ∀ b, b < sp.length → ∀ k, k < cfg.beamSize →
      ((res.allPredictions.getD b []).getD k []).length = sF.predictions.length ∧
      ∀ t, t < sF.predictions.length →
        ((res.allPredictions.getD b []).getD k []).getD t 0 =
          ((sF.predictions.getD t []).getD b []).getD
            (ancestorSlot sF.backpointers t b k) 0 := by
  obtain ⟨recon, hrec, hres, -⟩ := search_ok_components hinit hrun hsearch
  have hwf := searchLoop_wf _ (searchInit_wf hinit) hrun
  have hbne := (reconstruct_ok_ne hrec).2
  obtain ⟨hlen, hpt⟩ := reconstruct_spec hwf.preds_wf hwf.bp_wf hwf.len_eq hbne hrec
  intro b hb k hk
  have hrow : (res.allPredictions.getD b []).getD k [] =
      recon.map (fun m => (m.getD b []).getD k 0) := by
    rw [hres]
    exact stackTime_getD hb hk
  constructor
  · rw [hrow, List.length_map, hlen]
  · intro t ht
    rw [hrow, getD_map [] (by rw [hlen]; exact ht), hpt t ht b hb k hk]

/-- Witness for C2: the scenario's two-step run; slot 0's sequence is
`[0, 0]` and slot 1's is `[1, 0]`, matching the backpointer walk. -/
theorem c2_witness :
    searchInit cfgW stepW [1] 0 storeW = .ok (3, s0W) ∧
    searchLoop cfgW stepW 1 3 3 s0W = .ok sFW ∧
    cfgW.search [1] 0 storeW stepW (some stepW) = .ok (resW, [[("mem", [5, 5])]]) ∧
    ∀ b, b < ([1] : List Nat).length → ∀ k, k < cfgW.beamSize →
      ((resW.allPredictions.getD b []).getD k []).length = sFW.predictions.length ∧
      ∀ t, t < sFW.predictions.length →
        ((resW.allPredictions.getD b []).getD k []).getD t 0 =
          ((sFW.predictions.getD t []).getD b []).getD
            (ancestorSlot sFW.backpointers t b k) 0 := by
  refine ⟨rfl, rfl, rfl, ?_⟩
  exact c2_reconstruction_consistency
    (show searchInit cfgW ((some stepW).getD stepW) [1] 0 storeW = .ok (3, s0W) from rfl)
    (show searchLoop cfgW stepW ([1] : List Nat).length 3 (cfgW.maxSteps - 1) s0W =
      .ok sFW from rfl)
    (show cfgW.search [1] 0 storeW stepW (some stepW) =
      .ok (resW, [[("mem", [5, 5])]]) from rfl)

/-- **C4** (functional correctness): if after step `t` every hypothesis's
last chosen token equals `end_index`, the search makes no further call to
the step function (the remaining loop returns at once with zero scoring
calls), the whole loop result is the state reached at step `t`, and any
returned predictions have sequence length exactly `t + 1`. -/
theorem c4_early_stop_correct {σ : Type} [Inhabited σ] {cfg : BeamSearch}
    {stepFn : StepFn σ} {fs? : Option (StepFn σ)} {sp : List Nat} {r0 : Nat}
    {st : Store σ} {nc : Nat} {s0 sT : LoopState σ} {t : Nat}
    (hinit : searchInit cfg (fs?.getD stepFn) sp r0 st = .ok (nc, s0))
    (ht : searchLoop cfg stepFn sp.length nc t s0 = .ok sT)
    (hlen : sT.predictions.length = t + 1)
    (hstop : stopCondition cfg sT = true)
    (hfuel : t ≤ cfg.maxSteps - 1) :
    (∀ n, searchLoop cfg stepFn sp.length nc n sT = .ok sT ∧
      searchLoopCalls cfg stepFn sp.length nc n sT = 0) ∧
    searchLoop cfg stepFn sp.length nc (cfg.maxSteps - 1) s0 = .ok sT ∧
    ∀ res store', cfg.search sp r0 st stepFn fs? = .ok (res, store') →
      ∀ b, b < sp.length → ∀ k, k < cfg.beamSize →
        ((res.allPredictions.getD b []).getD k []).length = t + 1 := by
  have hfull : searchLoop cfg stepFn sp.length nc (cfg.maxSteps - 1) s0 = .ok sT := by
    have hsplit : cfg.maxSteps - 1 = t + (cfg.maxSteps - 1 - t) := by omega
    rw [hsplit, searchLoop_add, ht]
    exact searchLoop_stopped hstop _
  refine ⟨fun n => ⟨searchLoop_stopped hstop n, searchLoopCalls_stopped hstop n⟩,
    hfull, ?_⟩
  intro res store' hsearch b hb k hk
  obtain ⟨recon, hrec, hres, -⟩ := search_ok_components hinit hfull hsearch
  have hwf := searchLoop_wf _ (searchInit_wf hinit) hfull
  have hbne := (reconstruct_ok_ne hrec).2
  obtain ⟨hreclen, -⟩ := reconstruct_spec hwf.preds_wf hwf.bp_wf hwf.len_eq hbne hrec
  have hrow : (res.allPredictions.getD b []).getD k [] =
      recon.map (fun m => (m.getD b []).getD k 0) := by
    rw [hres]
    exact stackTime_getD hb hk
  rw [hrow, List.length_map, hreclen, hlen]

/-- Witness for C4: in the scenario every slot has emitted the end token
after step 1; the loop freezes there and the output sequences have
length 2. -/
theorem c4_witness :
    searchInit cfgW stepW [1] 0 storeW = .ok (3, s0W) ∧
    searchLoop cfgW stepW 1 3 1 s0W = .ok sFW ∧
    sFW.predictions.length = 1 + 1 ∧
    stopCondition cfgW sFW = true ∧
    (searchLoop cfgW stepW 1 3 5 sFW = .ok sFW ∧
      searchLoopCalls cfgW stepW 1 3 5 sFW = 0) ∧
    searchLoop cfgW stepW 1 3 (cfgW.maxSteps - 1) s0W = .ok sFW ∧
    ∀ res store', cfgW.search [1] 0 storeW stepW (some stepW) = .ok (res, store') →
      ∀ b, b < ([1] : List Nat).length → ∀ k, k < cfgW.beamSize →
        ((res.allPredictions.getD b []).getD k []).length = 1 + 1 := by
  have h := c4_early_stop_correct
    (show searchInit cfgW ((some stepW).getD stepW) [1] 0 storeW = .ok (3, s0W) from rfl)
    (show searchLoop cfgW stepW ([1] : List Nat).length 3 1 s0W = .ok sFW from rfl)
    (show sFW.predictions.length = 1 + 1 from rfl)
    (show stopCondition cfgW sFW = true from rfl)
    (by decide)
  exact ⟨rfl, rfl, rfl, rfl, h.1 5, h.2.1, h.2.2⟩

/-- **C7** (error handling): `search` raises the configuration error if
and only if `per_node_beam_size` exceeds the vocabulary size discovered
from the first scoring call, and in that case no main-loop scoring call
is ever made.  (The vocabulary size is discovered by performing the first
scoring call, which goes through `first_step`; `first_step` defaults to
the step function when not supplied.) -/
theorem c7_configuration_error_iff {σ : Type} [Inhabited σ] {cfg : BeamSearch}
    {stepFn : StepFn σ} {fs? : Option (StepFn σ)} {sp : List Nat} {r0 : Nat}
    {st : Store σ} (_hne : sp ≠ [])
    (hrect : ((fs?.getD stepFn) sp r0 st).logProbs.length = sp.length ∧
      ∀ row ∈ ((fs?.getD stepFn) sp r0 st).logProbs,
        row.length = (((fs?.getD stepFn) sp r0 st).logProbs.headD []).length) :
    (cfg.search sp r0 st stepFn fs? = .error .configurationError ↔
      cfg.perNodeBeamSize > (((fs?.getD stepFn) sp r0 st).logProbs.headD []).length) ∧
    (cfg.perNodeBeamSize > (((fs?.getD stepFn) sp r0 st).logProbs.headD []).length →
      cfg.searchStepCalls sp r0 st stepFn fs? = 0) := by
  constructor
  · constructor
    · intro h
      rw [search_eq] at h
      cases hinit : searchInit cfg (fs?.getD stepFn) sp r0 st with
      | error e =>
        rw [hinit] at h
        replace h : (.error e : Except SearchError (SearchResult × Store σ)) =
          .error .configurationError := h
        rw [Except.error.inj h] at hinit
        exact searchInit_error_config hinit
      | ok p =>
        obtain ⟨nc, s0⟩ := p
        rw [hinit] at h
        replace h :
            (match searchLoop cfg stepFn sp.length nc (cfg.maxSteps - 1) s0 with
              | .error e => (.error e : Except SearchError (SearchResult × Store σ))
              | .ok sF =>
                match reconstruct sF.predictions sF.backpointers with
                | .error e => .error e
                | .ok recon =>
                  .ok ({ allPredictions := stackTime recon sp.length cfg.beamSize
                         logProbabilities := sF.lastLogProbabilities }, sF.store)) =
              .error .configurationError := h
        cases hloop : searchLoop cfg stepFn sp.length nc (cfg.maxSteps - 1) s0 with
        | error e =>
          rw [hloop] at h
          replace h : (.error e : Except SearchError (SearchResult × Store σ)) =
            .error .configurationError := h
          have he := searchLoop_error _ hloop
          rw [Except.error.inj h] at he
          exact SearchError.noConfusion he
        | ok sF =>
          rw [hloop] at h
          replace h :
              (match reconstruct sF.predictions sF.backpointers with
                | .error e => (.error e : Except SearchError (SearchResult × Store σ))
                | .ok recon =>
                  .ok ({ allPredictions := stackTime recon sp.length cfg.beamSize
                         logProbabilities := sF.lastLogProbabilities }, sF.store)) =
                .error .configurationError := h
          cases hrec : reconstruct sF.predictions sF.backpointers with
          | error e =>
            rw [hrec] at h
            replace h : (.error e : Except SearchError (SearchResult × Store σ)) =
              .error .configurationError := h
            have he := reconstruct_error hrec
            rw [Except.error.inj h] at he
            exact SearchError.noConfusion he
          | ok recon =>
            rw [hrec] at h
            exact Except.noConfusion h
    · intro hgt
      rw [search_eq, searchInit_config hrect hgt]
  · intro hgt
    rw [searchStepCalls_eq, searchInit_config hrect hgt]

/-- Witness for C7: with `per_node_beam_size = 5` against a 3-token
vocabulary, `search` raises the configuration error and never calls the
step function inside the loop. -/
theorem c7_witness :
    (cfgC7.search [1] 0 storeW stepW (some stepW) = .error .configurationError ↔
      cfgC7.perNodeBeamSize > ((stepW [1] 0 storeW).logProbs.headD []).length) ∧
    (cfgC7.perNodeBeamSize > ((stepW [1] 0 storeW).logProbs.headD []).length →
      cfgC7.searchStepCalls [1] 0 storeW stepW (some stepW) = 0) ∧
    cfgC7.search [1] 0 storeW stepW (some stepW) = .error .configurationError := by
  have h := @c7_configuration_error_iff Nat _ cfgC7 stepW (some stepW) [1] 0 storeW (by decide)
    (⟨rfl, by decide⟩ :
      ((some stepW).getD stepW [1] 0 storeW).logProbs.length = ([1] : List Nat).length ∧
      ∀ row ∈ ((some stepW).getD stepW [1] 0 storeW).logProbs,
        row.length = (((some stepW).getD stepW [1] 0 storeW).logProbs.headD []).length)
  exact ⟨h.1, h.2, h.1.mpr (by decide)⟩

/-- **C8** (safety): if `max_steps = 1`, or if every token selected at
the first step equals `end_index` (so the loop exits before recording any
backpointer), `search` fails with the index error from reading
`backpointers[-1]` on an empty list; `search` returns normally only when
at least one loop iteration appended a backpointer. -/
theorem c8_empty_backpointers_fail {σ : Type} [Inhabited σ] {cfg : BeamSearch}
    {stepFn : StepFn σ} {fs? : Option (StepFn σ)} {sp : List Nat} {r0 : Nat}
    {st : Store σ} {nc : Nat} {s0 : LoopState σ}
    (hinit : searchInit cfg (fs?.getD stepFn) sp r0 st = .ok (nc, s0)) :
    ((cfg.maxSteps = 1 ∨ stopCondition cfg s0 = true) →
      cfg.search sp r0 st stepFn fs? = .error .indexError) ∧
    ∀ res store', cfg.search sp r0 st stepFn fs? = .ok (res, store') →
      ∃ sF, searchLoop cfg stepFn sp.length nc (cfg.maxSteps - 1) s0 = .ok sF ∧
        sF.backpointers ≠ [] := by
  have hbps0 : s0.backpointers = [] := by
    obtain ⟨-, -, -, -, -, -, hs0⟩ := searchInit_ok hinit
    rw [hs0]
  have hpne : s0.predictions ≠ [] := (searchInit_wf hinit).preds_ne
  constructor
  · intro hcond
    have hloop : searchLoop cfg stepFn sp.length nc (cfg.maxSteps - 1) s0 = .ok s0 := by
      rcases hcond with h1 | h1
      · rw [h1]
        rfl
      · exact searchLoop_stopped h1 _
    rw [search_eq, hinit]
    show (match searchLoop cfg stepFn sp.length nc (cfg.maxSteps - 1) s0 with
      | .error e => (.error e : Except SearchError (SearchResult × Store σ))
      | .ok sF =>
        match reconstruct sF.predictions sF.backpointers with
        | .error e => .error e
        | .ok recon =>
          .ok ({ allPredictions := stackTime recon sp.length cfg.beamSize
                 logProbabilities := sF.lastLogProbabilities }, sF.store)) =
      .error .indexError
    rw [hloop]
    show (match reconstruct s0.predictions s0.backpointers with
      | .error e => (.error e : Except SearchError (SearchResult × Store σ))
      | .ok recon =>
        .ok ({ allPredictions := stackTime recon sp.length cfg.beamSize
               logProbabilities := s0.lastLogProbabilities }, s0.store)) =
      .error .indexError
    rw [hbps0, reconstruct_nil_bps hpne]
  · intro res store' hsearch
    rw [search_eq, hinit] at hsearch
    replace hsearch :
        (match searchLoop cfg stepFn sp.length nc (cfg.maxSteps - 1) s0 with
          | .error e => (.error e : Except SearchError (SearchResult × Store σ))
          | .ok sF =>
            match reconstruct sF.predictions sF.backpointers with
            | .error e => .error e
            | .ok recon =>
              .ok ({ allPredictions := stackTime recon sp.length cfg.beamSize
                     logProbabilities := sF.lastLogProbabilities }, sF.store)) =
          .ok (res, store') := hsearch
    cases hloop : searchLoop cfg stepFn sp.length nc (cfg.maxSteps - 1) s0 with
    | error e =>
      rw [hloop] at hsearch
      exact Except.noConfusion hsearch
    | ok sF =>
      rw [hloop] at hsearch
      replace hsearch :
          (match reconstruct sF.predictions sF.backpointers with
            | .error e => (.error e : Except SearchError (SearchResult × Store σ))
            | .ok recon =>
              .ok ({ allPredictions := stackTime recon sp.length cfg.beamSize
                     logProbabilities := sF.lastLogProbabilities }, sF.store)) =
            .ok (res, store') := hsearch
      cases hrec : reconstruct sF.predictions sF.backpointers with
      | error e =>
        rw [hrec] at hsearch
        exact Except.noConfusion hsearch
      | ok recon =>
        exact ⟨sF, rfl, (reconstruct_ok_ne hrec).2⟩

/-- Witness for C8: with `max_steps = 1` the loop body never runs and the
reconstruction fails with the index error. -/
theorem c8_witness :
    searchInit cfgW1 stepW [1] 0 storeW = .ok (3, s0W) ∧
    cfgW1.maxSteps = 1 ∧
    cfgW1.search [1] 0 storeW stepW (some stepW) = .error .indexError := by
  have h := c8_empty_backpointers_fail
    (show searchInit cfgW1 ((some stepW).getD stepW) [1] 0 storeW = .ok (3, s0W) from rfl)
  exact ⟨rfl, rfl, h.1 (Or.inl rfl)⟩

/-- C10, counterexample to the claim as stated: the scoring function
returns its input state reference (as the claim explicitly permits —
"even when a scoring function returns its input state mapping as its
output state"), `search` returns normally, and the content of the
caller's start-state dictionary (reference 0) has been mutated in place
from `[("mem", [5])]` to `[("mem", [5, 5])]` by the beam broadcast and
backpointer gathers. -/
theorem c10_counterexample :
    cfgW.search [1] 0 storeW stepW (some stepW) = .ok (resW, [[("mem", [5, 5])]]) ∧
    storeGet ([[("mem", [5, 5])]] : Store Nat) 0 ≠ storeGet storeW 0 :=
  ⟨rfl, by decide⟩

/-- **C10 (amended)** (frame/effect): `search` mutates the state
dictionaries only through the references returned by the scoring calls.
The configuration fields are values and trivially unchanged; the caller's
`start_state` mapping is unchanged provided no scoring call returns the
caller's reference (no aliasing) and each scoring call itself preserves
the content at that reference.  (As the counterexample shows, when a
scoring function returns its input reference the caller's mapping is
mutated in place, so the unconditional claim fails.) -/
theorem c10_no_mutation_without_aliasing {σ : Type} [Inhabited σ] {cfg : BeamSearch}
    {stepFn : StepFn σ} {fs? : Option (StepFn σ)} {sp : List Nat} {r0 : Nat}
    {st : Store σ} {res : SearchResult} {store' : Store σ}
    (hstep : ∀ toks r s, (stepFn toks r s).stateRef ≠ r0 ∧
      storeGet (stepFn toks r s).store r0 = storeGet s r0)
    (hfirst : ∀ toks r s, ((fs?.getD stepFn) toks r s).stateRef ≠ r0 ∧
      storeGet ((fs?.getD stepFn) toks r s).store r0 = storeGet s r0)
    (hsearch : cfg.search sp r0 st stepFn fs? = .ok (res, store')) :
    storeGet store' r0 = storeGet st r0 := by
  rw [search_eq] at hsearch
  cases hinit : searchInit cfg (fs?.getD stepFn) sp r0 st with
  | error e =>
    rw [hinit] at hsearch
    exact Except.noConfusion hsearch
  | ok p =>
    obtain ⟨nc, s0⟩ := p
    rw [hinit] at hsearch
    replace hsearch :
        (match searchLoop cfg stepFn sp.length nc (cfg.maxSteps - 1) s0 with
          | .error e => (.error e : Except SearchError (SearchResult × Store σ))
          | .ok sF =>
            match reconstruct sF.predictions sF.backpointers with
            | .error e => .error e
            | .ok recon =>
              .ok ({ allPredictions := stackTime recon sp.length cfg.beamSize
                     logProbabilities := sF.lastLogProbabilities }, sF.store)) =
          .ok (res, store') := hsearch
    obtain ⟨-, -, -, -, -, -, hs0⟩ := searchInit_ok hinit
    have hout := hfirst sp r0 st
    have hs0ref : s0.stateRef ≠ r0 := by
      rw [hs0]
      exact hout.1
    have hs0store : storeGet s0.store r0 = storeGet st r0 := by
      rw [hs0]
      show storeGet (storeSet ((fs?.getD stepFn) sp r0 st).store
        ((fs?.getD stepFn) sp r0 st).stateRef _) r0 = _
      rw [storeGet_set_ne hout.1]
      exact hout.2
    cases hloop : searchLoop cfg stepFn sp.length nc (cfg.maxSteps - 1) s0 with
    | error e =>
      rw [hloop] at hsearch
      exact Except.noConfusion hsearch
    | ok sF =>
      rw [hloop] at hsearch
      replace hsearch :
          (match reconstruct sF.predictions sF.backpointers with
            | .error e => (.error e : Except SearchError (SearchResult × Store σ))
            | .ok recon =>
              .ok ({ allPredictions := stackTime recon sp.length cfg.beamSize
                     logProbabilities := sF.lastLogProbabilities }, sF.store)) =
            .ok (res, store') := hsearch
      obtain ⟨-, hfstore⟩ := searchLoop_frame hstep _ hs0ref hloop
      cases hrec : reconstruct sF.predictions sF.backpointers with
      | error e =>
        rw [hrec] at hsearch
        exact Except.noConfusion hsearch
      | ok recon =>
        rw [hrec] at hsearch
        replace hsearch :
            (.ok ({ allPredictions := stackTime recon sp.length cfg.beamSize
                    logProbabilities := sF.lastLogProbabilities }, sF.store) :
              Except SearchError (SearchResult × Store σ)) = .ok (res, store') := hsearch
        have hstore' : store' = sF.store :=
          (congrArg Prod.snd (Except.ok.inj hsearch)).symm
        rw [hstore', hfstore, hs0store]

/-- Witness for C10 (amended): a scoring function that always allocates a
fresh dictionary leaves the caller's start-state content untouched. -/
theorem c10_witness :
    cfgW.search [1] 0 storeW stepF10 (some stepF10) =
      .ok (resW, [[("mem", [5])], [], [("mem", [5, 5])], [], [("mem", [5, 5])]]) ∧
    storeGet ([[("mem", [5])], [], [("mem", [5, 5])], [], [("mem", [5, 5])]] : Store Nat)
      0 = storeGet storeW 0 := by
  refine ⟨rfl, ?_⟩
  exact c10_no_mutation_without_aliasing
    (fun toks r s =>
      ⟨by show s.length + 1 ≠ 0; exact Nat.succ_ne_zero _,
       by show storeGet (s ++ [[], storeGet s r]) 0 = storeGet s 0
          cases s with
          | nil => rfl
          | cons a t => rfl⟩)
    (fun toks r s =>
      ⟨by show s.length + 1 ≠ 0; exact Nat.succ_ne_zero _,
       by show storeGet (s ++ [[], storeGet s r]) 0 = storeGet s 0
          cases s with
          | nil => rfl
          | cons a t => rfl⟩)
    (show cfgW.search [1] 0 storeW stepF10 (some stepF10) =
      .ok (resW, [[("mem", [5])], [], [("mem", [5, 5])], [], [("mem", [5, 5])]])
      from rfl)

end BeamSearchSpec
